import Mathlib

/-!
Verification development for the antigravity2api protocol gateway.

The definitions below are shallow embeddings of the repository's source:
- `src/utils/converters/common.js` — signature context, part constructors,
  canonical message assembly (push/merge rules, tool-name lookup);
- `src/utils/converters/openai.js` and `src/utils/converters/claude.js` —
  the OpenAI- and Claude-protocol request encoders;
- `src/requester.js` — the transport response parser (header/body split over
  accumulated chunks), exit-code classification, gzip fallback and the
  403 error taxonomy.

JavaScript strings that can also be `null`/`undefined` are modelled as
`Option String`; JS truthiness (empty string, `null` and `undefined` are
falsy) is modelled explicitly by `truthy`/`jsOr`.
-/

namespace Antigravity

/-- JavaScript truthiness for a string-or-nullish value: `null`/`undefined`
and the empty string are falsy, every other string is truthy. -/
def truthy : Option String → Bool
  | none => false
  | some s => s ≠ ""

/-- JavaScript `a || b` for string-or-nullish values: the first operand when
it is truthy, otherwise the second operand. -/
def jsOr (a b : Option String) : Option String :=
  if truthy a then a else b

/-- JavaScript `a || b` where the right operand is a plain string. -/
def jsOrStr (a : Option String) (b : String) : String :=
  if truthy a then a.getD "" else b

/-- The first truthy element of a list of string-or-nullish values, `none`
when no element is truthy. -/
def firstTruthy : List (Option String) → Option String
  | [] => none
  | a :: rest => if truthy a then a else firstTruthy rest

/-- Model of JS `String.prototype.trim` (whitespace stripped on both ends). -/
def jsTrim (s : String) : String :=
  ⟨((s.data.dropWhile Char.isWhitespace).reverse.dropWhile Char.isWhitespace).reverse⟩

/-- Model of JS `String.prototype.trimEnd`. -/
def jsTrimEnd (s : String) : String :=
  ⟨(s.data.reverse.dropWhile Char.isWhitespace).reverse⟩

/-! ## Canonical data model (antigravity message parts) -/

/-- Tool-call arguments as they arrive from the client (a JS string or an
already-structured object; the object's contents are opaque here). -/
inductive ArgsIn where
  | str (s : String)
  | obj (o : String)
deriving DecidableEq, Repr

/-- Arguments stored on a canonical functionCall part: either the object
built by wrapping a string argument into `{ query: args }`, or the original
object passed through. -/
inductive ArgsOut where
  | query (s : String)
  | obj (o : String)
deriving DecidableEq, Repr

/-- `createFunctionCallPart`'s argument normalisation:
`typeof args === 'string' ? { query: args } : args`. -/
def normalizeArgs : ArgsIn → ArgsOut
  | .str s => .query s
  | .obj o => .obj o

/-- The `functionCall` object of a canonical part. -/
structure FunctionCall where
  id : String
  name : String
  args : ArgsOut
deriving DecidableEq, Repr

/-- Canonical message part (closed tagged form of the duck-typed JS parts).
`thought` covers parts with `thought: true`; the optional `thoughtSignature`
field of thought and functionCall parts is `none` when the JS object has no
such property. -/
inductive Part where
  | text (t : String)
  | thought (t : String) (thoughtSignature : Option String)
  | functionCall (fc : FunctionCall) (thoughtSignature : Option String)
  | functionResponse (id : String) (name : String) (output : String)
  | inlineData (mimeType : String) (data : String)
deriving DecidableEq, Repr

inductive Role where
  | user
  | model
deriving DecidableEq, Repr

/-- Canonical message: `{ role, parts }`. -/
structure Message where
  role : Role
  parts : List Part
deriving DecidableEq, Repr

/-! ## Converter environment

`converters/common.js` imports its collaborators from modules that are not
part of the source under verification (`config.js`, `thoughtSignatureCache.js`,
`utils.js`, `toolNameCache.js`).  They are modelled abstractly: the three
policy switches of the configuration, the signature-cache getters, the static
per-model fallback-signature tables and the tool-name sanitizer.  The
`setToolNameMapping` side effect registers a reverse name mapping with an
external collaborator and does not influence the encoded request, so it is
not modelled. -/
structure ConvEnv where
  useCachedSignature : Bool
  useFallbackSignature : Bool
  cacheOnlyToolSignatures : Bool
  getReasoningSignature : String → String → Option String
  getToolSignature : String → String → Option String
  getThoughtSignatureForModel : String → Option String
  getToolSignatureForModel : String → Option String
  sanitizeToolName : String → String

/-- Result of `getSignatureContext`. -/
structure SignatureContext where
  reasoningSignature : Option String
  toolSignature : Option String

/-- `common.js` `getSignatureContext(sessionId, actualModelName, hasTools)`. -/
def getSignatureContext (env : ConvEnv) (sessionId actualModelName : String)
    (hasTools : Bool) : SignatureContext :=
  let cachedReasoningSig :=
    if env.useCachedSignature then env.getReasoningSignature sessionId actualModelName else none
  let shouldGetCachedToolSig :=
    env.useCachedSignature && (!env.cacheOnlyToolSignatures || hasTools)
  let cachedToolSig :=
    if shouldGetCachedToolSig then env.getToolSignature sessionId actualModelName else none
  let shouldUseFallbackToolSig :=
    env.useFallbackSignature && (!env.cacheOnlyToolSignatures || hasTools)
  { reasoningSignature :=
      jsOr cachedReasoningSig
        (if env.useFallbackSignature then env.getThoughtSignatureForModel actualModelName else none)
    toolSignature :=
      jsOr cachedToolSig
        (if shouldUseFallbackToolSig then env.getToolSignatureForModel actualModelName else none) }

/-! ## common.js message assembly -/

/-- Extraction result `{ text, images }` used by the user-content handlers. -/
structure Extracted where
  text : String
  images : List Part
deriving Repr

/-- `common.js` `pushUserMessage`: appends a user message whose first part is
the extracted text (`extracted?.text || ' '`) followed by the image parts. -/
def pushUserMessage (extracted : Extracted) (antigravityMessages : List Message) :
    List Message :=
  antigravityMessages ++
    [{ role := .user
       parts := Part.text (if extracted.text = "" then " " else extracted.text) :: extracted.images }]

/-- Inner loop of `findFunctionNameById`: scan one message's parts in order
for a `functionCall` carrying the wanted id. -/
def findInParts (toolCallId : String) : List Part → Option String
  | [] => none
  | .functionCall fc _ :: rest =>
      if fc.id = toolCallId then some fc.name else findInParts toolCallId rest
  | _ :: rest => findInParts toolCallId rest

/-- Outer loop of `findFunctionNameById` over the message list already
reversed (the source iterates indices from the end). -/
def findNameLoop (toolCallId : String) : List Message → String
  | [] => ""
  | m :: rest =>
      if m.role = .model then
        match findInParts toolCallId m.parts with
        | some n => n
        | none => findNameLoop toolCallId rest
      else findNameLoop toolCallId rest

/-- `common.js` `findFunctionNameById`: backward scan over model-role
messages, returning `''` when nothing matches. -/
def findFunctionNameById (toolCallId : String) (antigravityMessages : List Message) : String :=
  findNameLoop toolCallId antigravityMessages.reverse

def isFunctionResponsePart : Part → Bool
  | .functionResponse .. => true
  | _ => false

/-- `common.js` `pushFunctionResponse`: appends the functionResponse part to
the last message when it is user-role and already holds a functionResponse,
otherwise starts a new user message. -/
def pushFunctionResponse (toolCallId functionName resultContent : String)
    (antigravityMessages : List Message) : List Message :=
  let functionResponse := Part.functionResponse toolCallId functionName resultContent
  match antigravityMessages.getLast? with
  | some lastMessage =>
      if lastMessage.role = .user && lastMessage.parts.any isFunctionResponsePart then
        antigravityMessages.dropLast ++
          [{ lastMessage with parts := lastMessage.parts ++ [functionResponse] }]
      else antigravityMessages ++ [{ role := .user, parts := [functionResponse] }]
  | none => antigravityMessages ++ [{ role := .user, parts := [functionResponse] }]

/-- `common.js` `createThoughtPart(text, signature)`: text defaults to a
single space, the signature property is set only when truthy. -/
def createThoughtPart (text : String) (signature : Option String) : Part :=
  .thought (if text = "" then " " else text) (if truthy signature then signature else none)

/-- `common.js` `createFunctionCallPart(id, name, args, signature)`. -/
def createFunctionCallPart (id name : String) (args : ArgsIn) (signature : Option String) : Part :=
  .functionCall { id := id, name := name, args := normalizeArgs args }
    (if truthy signature then signature else none)

/-- `common.js` `processToolName`: the returned safe name (the
`setToolNameMapping` registration is an external side effect). -/
def processToolName (env : ConvEnv) (originalName : String) : String :=
  env.sanitizeToolName originalName

/-- The `{ parts, toolCalls, hasContent }` option object handed to
`pushModelMessage` by the assistant-message handlers. -/
structure BuiltModelMsg where
  parts : List Part
  toolCalls : List Part
  hasContent : Bool

/-- `common.js` `pushModelMessage`: when the previous message is model-role
and the incoming model message consists of tool calls with no text content,
the tool-call parts are appended to the previous message; otherwise a new
model message with `parts ++ toolCalls` is pushed. -/
def pushModelMessage (b : BuiltModelMsg) (antigravityMessages : List Message) : List Message :=
  let hasToolCalls := !b.toolCalls.isEmpty
  match antigravityMessages.getLast? with
  | some lastMessage =>
      if lastMessage.role = .model && hasToolCalls && !b.hasContent then
        antigravityMessages.dropLast ++
          [{ lastMessage with parts := lastMessage.parts ++ b.toolCalls }]
      else antigravityMessages ++ [{ role := .model, parts := b.parts ++ b.toolCalls }]
  | none => antigravityMessages ++ [{ role := .model, parts := b.parts ++ b.toolCalls }]

/-! ## openai.js encoder -/

/-- The `function` object inside an OpenAI tool call. -/
structure OpenAIFunction where
  name : String
  arguments : ArgsIn
deriving Repr

/-- One entry of `message.tool_calls`; `thoughtSignature` is the
protocol-extension signature an inbound tool call may carry. -/
structure OpenAIToolCall where
  id : String
  function : OpenAIFunction
  thoughtSignature : Option String
deriving Repr

/-- The fields of an OpenAI assistant message read by
`handleAssistantMessage`. -/
structure OpenAIAssistantMsg where
  content : Option String
  reasoning_content : Option String
  thoughtSignature : Option String
  tool_calls : List OpenAIToolCall
deriving Repr

/-- One element of an OpenAI array-form content. -/
inductive OpenAIContentItem where
  | text (t : String)
  | image_url (url : String)
  | otherItem
deriving Repr

/-- OpenAI user/system message content: a plain string, an item array, or
null/undefined. -/
inductive OpenAIContent where
  | str (s : String)
  | arr (items : List OpenAIContentItem)
  | nullContent
deriving Repr

def isWordChar (c : Char) : Bool := c.isAlphanum || c == '_'

/-- Match of the data-URI pattern in `extractImagesFromContent`, the regexp
over `image_url.url` anchored at both ends with a word-character extension
group, the literal `;base64,` and a non-empty data group (the dot of the
regexp does not cross line terminators). -/
def parseDataImageUrl (url : String) : Option (String × String) :=
  if url.startsWith "data:image/" then
    let rest := (url.drop 11).data
    let ext := rest.takeWhile isWordChar
    let after := rest.drop ext.length
    let marker := ";base64,".data
    if ext.isEmpty then none
    else if marker.isPrefixOf after then
      let dataPart := after.drop marker.length
      if !dataPart.isEmpty && dataPart.all (fun c => !(c == '\n' || c == '\r')) then
        some (⟨ext⟩, ⟨dataPart⟩)
      else none
    else none
  else none

/-- The `image_url` arm of `extractImagesFromContent`: when the data-URI
pattern matches, an inlineData part with mime type `image/<ext>` is appended;
otherwise the item is dropped silently. -/
def openaiExtractImage (acc : Extracted) (r : Option (String × String)) : Extracted :=
  match r with
  | some (ext, dataPart) =>
      { acc with images := acc.images ++ [.inlineData ("image/" ++ ext) dataPart] }
  | none => acc

/-- Fold step of `extractImagesFromContent` over one content item. -/
def openaiExtractStep (acc : Extracted) : OpenAIContentItem → Extracted
  | .text t => { acc with text := acc.text ++ t }
  | .image_url url => openaiExtractImage acc (parseDataImageUrl url)
  | .otherItem => acc

/-- `openai.js` `extractImagesFromContent`. -/
def extractImagesFromContent : OpenAIContent → Extracted
  | .str s => { text := s, images := [] }
  | .arr items => items.foldl openaiExtractStep { text := "", images := [] }
  | .nullContent => { text := "", images := [] }

/-- The thought-part signature chain of `handleAssistantMessage`:
`message.thoughtSignature || reasoningSignature || toolSignature`. -/
def resolveOpenaiThoughtSig (env : ConvEnv) (m : OpenAIAssistantMsg)
    (actualModelName sessionId : String) (hasTools : Bool) : Option String :=
  let ctx := getSignatureContext env sessionId actualModelName hasTools
  jsOr m.thoughtSignature (jsOr ctx.reasoningSignature ctx.toolSignature)

/-- The reasoning text used for the thought part: `reasoning_content` when it
is a non-empty string, a single space otherwise. -/
def openaiReasoningText (m : OpenAIAssistantMsg) : String :=
  match m.reasoning_content with
  | some s => if s.length > 0 then s else " "
  | none => " "

/-- JS `delete part.thoughtSignature` (a no-op on parts without the field). -/
def deleteThoughtSignature : Part → Part
  | .thought t _ => .thought t none
  | .functionCall fc _ => .functionCall fc none
  | p => p

/-- `if (!enableThinking && parts[0]) delete parts[0].thoughtSignature`. -/
def deleteFirstThoughtSignature : List Part → List Part
  | [] => []
  | p :: rest => deleteThoughtSignature p :: rest

/-- `openai.js` `handleAssistantMessage`, factored as the source computes it:
the local values `parts`, `toolCalls` and `hasContent` that are handed to
`pushModelMessage`. -/
def buildOpenaiAssistant (env : ConvEnv) (m : OpenAIAssistantMsg) (enableThinking : Bool)
    (actualModelName sessionId : String) (hasTools : Bool) : BuiltModelMsg :=
  let hasToolCalls := !m.tool_calls.isEmpty
  let hasContent := !(jsTrim (m.content.getD "") == "")
  let ctx := getSignatureContext env sessionId actualModelName hasTools
  let toolCalls :=
    if hasToolCalls then
      m.tool_calls.map (fun toolCall =>
        let safeName := processToolName env toolCall.function.name
        let signature :=
          if enableThinking then
            jsOr toolCall.thoughtSignature
              (jsOr ctx.toolSignature (jsOr m.thoughtSignature ctx.reasoningSignature))
          else none
        createFunctionCallPart toolCall.id safeName toolCall.function.arguments signature)
    else []
  let parts0 :=
    if enableThinking then
      let signature := resolveOpenaiThoughtSig env m actualModelName sessionId hasTools
      if truthy signature then [createThoughtPart (openaiReasoningText m) signature] else []
    else []
  let parts1 := parts0 ++ (if hasContent then [Part.text (jsTrimEnd (m.content.getD ""))] else [])
  let parts := if !enableThinking then deleteFirstThoughtSignature parts1 else parts1
  { parts := parts, toolCalls := toolCalls, hasContent := hasContent }

/-- `openai.js` `handleAssistantMessage` (build the parts, then push). -/
def handleAssistantMessage (env : ConvEnv) (m : OpenAIAssistantMsg)
    (antigravityMessages : List Message) (enableThinking : Bool)
    (actualModelName sessionId : String) (hasTools : Bool) : List Message :=
  pushModelMessage (buildOpenaiAssistant env m enableThinking actualModelName sessionId hasTools)
    antigravityMessages

/-- `openai.js` `handleToolCall`. -/
def handleToolCall (tool_call_id content : String) (antigravityMessages : List Message) :
    List Message :=
  pushFunctionResponse tool_call_id (findFunctionNameById tool_call_id antigravityMessages)
    content antigravityMessages

/-- One OpenAI chat message, tagged by its `role` string (roles other than
user/system/assistant/tool are skipped by the encoder loop). -/
inductive OpenAIMessage where
  | user (content : OpenAIContent)
  | system (content : OpenAIContent)
  | assistant (m : OpenAIAssistantMsg)
  | tool (tool_call_id : String) (content : String)
  | otherRole
deriving Repr

/-- Loop body of `openaiMessageToAntigravity`. -/
def openaiStep (env : ConvEnv) (enableThinking : Bool) (actualModelName sessionId : String)
    (hasTools : Bool) (acc : List Message) : OpenAIMessage → List Message
  | .user c => pushUserMessage (extractImagesFromContent c) acc
  | .system c => pushUserMessage (extractImagesFromContent c) acc
  | .assistant m =>
      handleAssistantMessage env m acc enableThinking actualModelName sessionId hasTools
  | .tool id content => handleToolCall id content acc
  | .otherRole => acc

/-- `openai.js` `openaiMessageToAntigravity`. -/
def openaiMessageToAntigravity (env : ConvEnv) (openaiMessages : List OpenAIMessage)
    (enableThinking : Bool) (actualModelName sessionId : String) (hasTools : Bool) :
    List Message :=
  openaiMessages.foldl (openaiStep env enableThinking actualModelName sessionId hasTools) []

/-! ## claude.js encoder -/

/-- The `source` object of a Claude image block. -/
structure ClaudeImageSource where
  type_ : String
  media_type : Option String
  data : Option String
deriving Repr

/-- One element of a `tool_result` content array. -/
inductive ClaudeResultItem where
  | textItem (t : Option String)
  | nonText
deriving Repr

/-- The `content` of a `tool_result` block. -/
inductive ClaudeResultContent where
  | str (s : String)
  | arr (items : List ClaudeResultItem)
  | nullContent
deriving Repr

/-- `handleClaudeToolResult`'s extraction of the result text: a string is
taken as is; an array is filtered to its text items and their texts joined
(JS `join` renders a missing text as the empty string); anything else gives
the empty string. -/
def claudeResultText : ClaudeResultContent → String
  | .str s => s
  | .arr items =>
      items.foldl
        (fun acc it =>
          match it with
          | .textItem t => acc ++ t.getD ""
          | .nonText => acc) ""
  | .nullContent => ""

/-- One Claude content block. `tool_use.input` is the opaque JSON text of the
input object when present (`JSON.stringify(item.input || {})` is modelled by
defaulting to the empty-object text). -/
inductive ClaudeItem where
  | text (t : Option String)
  | image (source : Option ClaudeImageSource)
  | thinking (signature : Option String)
  | tool_use (id : String) (name : String) (input : Option String) (signature : Option String)
  | tool_result (tool_use_id : String) (content : ClaudeResultContent)
  | otherItem
deriving Repr

/-- Claude message content: a plain string, a block array, or null. -/
inductive ClaudeContent where
  | str (s : String)
  | arr (items : List ClaudeItem)
  | nullContent
deriving Repr

/-- The `image` arm of `extractImagesFromClaudeContent`: an inlineData part is
appended only for a base64 source with truthy data, with the media type
defaulting to `image/png`. -/
def claudeExtractImage (acc : Extracted) (source : Option ClaudeImageSource) : Extracted :=
  match source with
  | some s =>
      if s.type_ == "base64" && truthy s.data then
        { acc with images :=
            acc.images ++ [.inlineData (jsOrStr s.media_type "image/png") (s.data.getD "")] }
      else acc
  | none => acc

/-- Fold step of `extractImagesFromClaudeContent`. -/
def claudeExtractStep (acc : Extracted) : ClaudeItem → Extracted
  | .text t => { acc with text := acc.text ++ t.getD "" }
  | .image source => claudeExtractImage acc source
  | _ => acc

/-- `claude.js` `extractImagesFromClaudeContent`. -/
def extractImagesFromClaudeContent : ClaudeContent → Extracted
  | .str s => { text := s, images := [] }
  | .arr items => items.foldl claudeExtractStep { text := "", images := [] }
  | .nullContent => { text := "", images := [] }

/-- Accumulator of `handleClaudeAssistantMessage`'s content loop:
`textContent`, `toolCalls` and the first truthy thinking-block signature. -/
structure ClaudeScan where
  textContent : String
  toolCalls : List Part
  messageSignature : Option String

/-- Loop body of `handleClaudeAssistantMessage` over one content block. -/
def claudeScanStep (env : ConvEnv) (enableThinking : Bool) (ctx : SignatureContext)
    (s : ClaudeScan) : ClaudeItem → ClaudeScan
  | .text t => { s with textContent := s.textContent ++ t.getD "" }
  | .thinking signature =>
      if !(truthy s.messageSignature) && truthy signature then
        { s with messageSignature := signature }
      else s
  | .tool_use id name input signature =>
      let safeName := processToolName env name
      let sig :=
        if enableThinking then jsOr signature (jsOr ctx.toolSignature ctx.reasoningSignature)
        else none
      { s with toolCalls :=
          s.toolCalls ++ [createFunctionCallPart id safeName (.str (input.getD "\x7b\x7d")) sig] }
  | _ => s

/-- The content loop of `handleClaudeAssistantMessage`. -/
def claudeScanContent (env : ConvEnv) (enableThinking : Bool) (ctx : SignatureContext) :
    ClaudeContent → ClaudeScan
  | .str s => { textContent := s, toolCalls := [], messageSignature := none }
  | .arr items => items.foldl (claudeScanStep env enableThinking ctx) ⟨"", [], none⟩
  | .nullContent => ⟨"", [], none⟩

/-- The thought-part signature chain of `handleClaudeAssistantMessage`:
`messageSignature || reasoningSignature || toolSignature` (evaluated with
thinking enabled, which the scan's signature component does not depend on). -/
def resolveClaudeThoughtSig (env : ConvEnv) (content : ClaudeContent)
    (actualModelName sessionId : String) (hasTools : Bool) : Option String :=
  let ctx := getSignatureContext env sessionId actualModelName hasTools
  jsOr (claudeScanContent env true ctx content).messageSignature
    (jsOr ctx.reasoningSignature ctx.toolSignature)

/-- `claude.js` `handleClaudeAssistantMessage`, factored as the source
computes it: the `{ parts, toolCalls, hasContent }` handed to
`pushModelMessage`. -/
def buildClaudeAssistant (env : ConvEnv) (content : ClaudeContent) (enableThinking : Bool)
    (actualModelName sessionId : String) (hasTools : Bool) : BuiltModelMsg :=
  let ctx := getSignatureContext env sessionId actualModelName hasTools
  let scan := claudeScanContent env enableThinking ctx content
  let hasContent := !(jsTrim scan.textContent == "")
  let parts0 :=
    if enableThinking then
      let signature :=
        jsOr scan.messageSignature (jsOr ctx.reasoningSignature ctx.toolSignature)
      if truthy signature then [createThoughtPart " " signature] else []
    else []
  let parts1 := parts0 ++ (if hasContent then [Part.text (jsTrimEnd scan.textContent)] else [])
  let parts := if !enableThinking then deleteFirstThoughtSignature parts1 else parts1
  { parts := parts, toolCalls := scan.toolCalls, hasContent := hasContent }

/-- `claude.js` `handleClaudeAssistantMessage`. -/
def handleClaudeAssistantMessage (env : ConvEnv) (content : ClaudeContent)
    (antigravityMessages : List Message) (enableThinking : Bool)
    (actualModelName sessionId : String) (hasTools : Bool) : List Message :=
  pushModelMessage (buildClaudeAssistant env content enableThinking actualModelName sessionId hasTools)
    antigravityMessages

/-- One Claude chat message, tagged by role. -/
inductive ClaudeMessage where
  | user (content : ClaudeContent)
  | assistant (content : ClaudeContent)
  | otherRole
deriving Repr

/-- `Array.isArray(content) && content.some(item => item.type === 'tool_result')`. -/
def claudeHasToolResult : ClaudeContent → Bool
  | .arr items =>
      items.any (fun it => match it with | .tool_result .. => true | _ => false)
  | _ => false

/-- `claude.js` `handleClaudeToolResult`. -/
def handleClaudeToolResult (content : ClaudeContent) (antigravityMessages : List Message) :
    List Message :=
  match content with
  | .arr items =>
      items.foldl
        (fun acc it =>
          match it with
          | .tool_result id rc =>
              pushFunctionResponse id (findFunctionNameById id acc) (claudeResultText rc) acc
          | _ => acc) antigravityMessages
  | _ => antigravityMessages

/-- Loop body of `claudeMessageToAntigravity`. -/
def claudeStep (env : ConvEnv) (enableThinking : Bool) (actualModelName sessionId : String)
    (hasTools : Bool) (acc : List Message) : ClaudeMessage → List Message
  | .user content =>
      if claudeHasToolResult content then handleClaudeToolResult content acc
      else pushUserMessage (extractImagesFromClaudeContent content) acc
  | .assistant content =>
      handleClaudeAssistantMessage env content acc enableThinking actualModelName sessionId hasTools
  | .otherRole => acc

/-- `claude.js` `claudeMessageToAntigravity`. -/
def claudeMessageToAntigravity (env : ConvEnv) (claudeMessages : List ClaudeMessage)
    (enableThinking : Bool) (actualModelName sessionId : String) (hasTools : Bool) :
    List Message :=
  claudeMessages.foldl (claudeStep env enableThinking actualModelName sessionId hasTools) []

/-! ## Observation helpers -/

def isThoughtPart : Part → Bool
  | .thought .. => true
  | _ => false

/-- Number of thought parts in a part list. -/
def thoughtCount (l : List Part) : Nat := l.countP (fun p => isThoughtPart p)

/-- Extract the functionCall object of a part, when it is one. -/
def getFC : Part → Option FunctionCall
  | .functionCall fc _ => some fc
  | _ => none

/-- A part either is not a functionCall or carries no signature. -/
def fcSignatureNone : Part → Bool
  | .functionCall _ s => s.isNone
  | _ => true

/-- No functionCall part anywhere in the message list carries a signature. -/
def noFcSigs (msgs : List Message) : Bool := msgs.all (fun m => m.parts.all fcSignatureNone)

/-! ## Transport layer (src/requester.js, FingerprintRequester.request)

Bytes are `Nat` values below 256; JS strings built by `chunk.toString()` are
modelled as lists of Unicode code points (`Nat`).  `utf8Decode` models Node's
UTF-8 decoding with U+FFFD replacement for invalid sequences, `utf8Encode`
models `Buffer.from(string)`. -/

/-- A UTF-8 continuation byte. -/
def isCont (b : Nat) : Bool := 128 ≤ b && b ≤ 191

/-- The replacement character U+FFFD emitted for invalid UTF-8 input. -/
def repl : Nat := 0xFFFD

/-- Admissible second byte of a three-byte sequence headed by `b`
(E0 requires A0..BF, ED requires 80..9F). -/
def utf8Second3Ok (b c : Nat) : Bool :=
  if b == 224 then 160 ≤ c && c ≤ 191
  else if b == 237 then 128 ≤ c && c ≤ 159
  else isCont c

/-- Admissible second byte of a four-byte sequence headed by `b`
(F0 requires 90..BF, F4 requires 80..8F). -/
def utf8Second4Ok (b c : Nat) : Bool :=
  if b == 240 then 144 ≤ c && c ≤ 191
  else if b == 244 then 128 ≤ c && c ≤ 143
  else isCont c

/-- UTF-8 decoding with replacement, fuelled by the input length (each step
consumes at least one byte and one unit of fuel). -/
def utf8DecodeFuel : Nat → List Nat → List Nat
  | 0, _ => []
  | _ + 1, [] => []
  | fuel + 1, b :: rest =>
      if b < 128 then b :: utf8DecodeFuel fuel rest
      else if b < 194 then repl :: utf8DecodeFuel fuel rest
      else if b ≤ 223 then
        match rest with
        | [] => [repl]
        | c :: r2 =>
            if isCont c then ((b - 192) * 64 + (c - 128)) :: utf8DecodeFuel fuel r2
            else repl :: utf8DecodeFuel fuel rest
      else if b ≤ 239 then
        match rest with
        | [] => [repl]
        | c :: r2 =>
            if utf8Second3Ok b c then
              match r2 with
              | [] => [repl]
              | d :: r3 =>
                  if isCont d then
                    ((b - 224) * 4096 + (c - 128) * 64 + (d - 128)) :: utf8DecodeFuel fuel r3
                  else repl :: utf8DecodeFuel fuel r2
            else repl :: utf8DecodeFuel fuel rest
      else if b ≤ 244 then
        match rest with
        | [] => [repl]
        | c :: r2 =>
            if utf8Second4Ok b c then
              match r2 with
              | [] => [repl]
              | d :: r3 =>
                  if isCont d then
                    match r3 with
                    | [] => [repl]
                    | e :: r4 =>
                        if isCont e then
                          ((b - 240) * 262144 + (c - 128) * 4096 + (d - 128) * 64 + (e - 128)) ::
                            utf8DecodeFuel fuel r4
                        else repl :: utf8DecodeFuel fuel r3
                  else repl :: utf8DecodeFuel fuel r2
            else repl :: utf8DecodeFuel fuel rest
      else repl :: utf8DecodeFuel fuel rest

/-- Model of `chunk.toString('utf8')`: bytes to code points. -/
def utf8Decode (l : List Nat) : List Nat := utf8DecodeFuel l.length l

/-- UTF-8 encoding of one code point. -/
def utf8EncodeChar (u : Nat) : List Nat :=
  if u < 128 then [u]
  else if u < 2048 then [192 + u / 64, 128 + u % 64]
  else if u < 65536 then [224 + u / 4096, 128 + (u / 64) % 64, 128 + u % 64]
  else [240 + u / 262144, 128 + (u / 4096) % 64, 128 + (u / 64) % 64, 128 + u % 64]

/-- Model of `Buffer.from(string)`: code points to bytes. -/
def utf8Encode (l : List Nat) : List Nat := (l.map utf8EncodeChar).flatten

/-- JS `String.prototype.indexOf` for a fixed pattern: index of the first
occurrence of `pat`, `none` when absent. -/
def indexOfSub (pat : List Nat) : List Nat → Option Nat
  | [] => if pat.isPrefixOf ([] : List Nat) then some 0 else none
  | x :: t => if pat.isPrefixOf (x :: t) then some 0 else (indexOfSub pat t).map (· + 1)

/-- JS `String.prototype.split` with a fixed separator, fuelled by the input
length (each round consumes at least one element). -/
def splitOnSubFuel (sep : List Nat) : Nat → List Nat → List (List Nat)
  | 0, l => [l]
  | fuel + 1, l =>
      match indexOfSub sep l with
      | none => [l]
      | some i => l.take i :: splitOnSubFuel sep fuel (l.drop (i + sep.length))

def splitOnSub (sep l : List Nat) : List (List Nat) := splitOnSubFuel sep l.length l

/-- The `CRLF CRLF` header/body boundary searched for in the accumulated
header buffer. -/
def crlfcrlf : List Nat := [13, 10, 13, 10]

def isDigitByte (b : Nat) : Bool := 48 ≤ b && b ≤ 57

/-- JS `parseInt` on a digit string. -/
def parseDigits (l : List Nat) : Nat := l.foldl (fun acc b => acc * 10 + (b - 48)) 0

/-- ASCII lower-casing of a header name (`key.toLowerCase()`; header names on
this wire are ASCII). -/
def lowerBytes (l : List Nat) : List Nat :=
  l.map (fun b => if 65 ≤ b && b ≤ 90 then b + 32 else b)

/-- Match of the status-line regexp `HTTP\/[\d.]+ (\d+) (.+)` at the start of
`l`: the HTTP literal, a non-empty digits-and-dots version, a space, the
captured status digits, a space and the captured non-empty reason (the dot of
the regexp stops at line terminators).  The character classes make
backtracking irrelevant, so maximal-munch runs are faithful. -/
def matchStatusAt (l : List Nat) : Option (Nat × List Nat) :=
  if [72, 84, 84, 80, 47].isPrefixOf l then
    let r1 := l.drop 5
    let ver := r1.takeWhile (fun b => isDigitByte b || b == 46)
    if ver.isEmpty then none
    else
      match r1.drop ver.length with
      | 32 :: r3 =>
          let code := r3.takeWhile isDigitByte
          if code.isEmpty then none
          else
            match r3.drop code.length with
            | 32 :: r4 =>
                let reason := r4.takeWhile (fun b => !(b == 10 || b == 13))
                if reason.isEmpty then none else some (parseDigits code, reason)
            | _ => none
      | _ => none
  else none

/-- The JS regexp is unanchored: the first position where the status pattern
matches wins. -/
def findStatusMatch : List Nat → Option (Nat × List Nat)
  | [] => none
  | x :: t =>
      match matchStatusAt (x :: t) with
      | some r => some r
      | none => findStatusMatch t

/-- JS object assignment `responseHeaders[key] = value`: overwrite in place
when the key exists, append otherwise. -/
def setHeader (hs : List (List Nat × List Nat)) (k v : List Nat) :
    List (List Nat × List Nat) :=
  if hs.any (fun p => p.1 == k) then hs.map (fun p => if p.1 == k then (k, v) else p)
  else hs ++ [(k, v)]

/-- One header line: `const [key, ...valueParts] = lines[i].split(': ')`,
skipped when the key is empty, value re-joined with `': '`. -/
def addHeaderLine (hs : List (List Nat × List Nat)) (line : List Nat) :
    List (List Nat × List Nat) :=
  let partsSplit := splitOnSub [58, 32] line
  let key := partsSplit.headD []
  if !key.isEmpty then
    setHeader hs (lowerBytes key) (List.intercalate [58, 32] (partsSplit.drop 1))
  else hs

/-- Parse of the complete header block: status line (line 0, defaulting to
`200 OK` when the pattern does not match) and the remaining header lines. -/
def parseHeaderBlock (headerPart : List Nat) : Nat × List Nat × List (List Nat × List Nat) :=
  let lines := splitOnSub [13, 10] headerPart
  let statusPair :=
    match findStatusMatch (lines.headD []) with
    | some r => r
    | none => (200, [79, 75])
  (statusPair.1, statusPair.2, (lines.drop 1).foldl addHeaderLine [])

/-- The mutable state of the stdout handler in
`FingerprintRequester.request`. -/
structure TState where
  headersParsed : Bool
  headerBuffer : List Nat
  responseStatus : Nat
  responseStatusText : List Nat
  responseHeaders : List (List Nat × List Nat)
  bodyChunks : List (List Nat)
deriving DecidableEq, Repr

/-- Initial handler state (`responseStatus = 200`, `'OK'`, empty buffers). -/
def initTState : TState :=
  { headersParsed := false, headerBuffer := [], responseStatus := 200,
    responseStatusText := [79, 75], responseHeaders := [], bodyChunks := [] }

/-- The `proc.stdout.on('data')` handler for one chunk: before the boundary is
found, the decoded chunk is appended to the accumulated header buffer and the
buffer is searched for the first `CRLF CRLF`; once found, the prefix is parsed
and the non-empty remainder re-encoded as the first body chunk.  After the
boundary, chunks are collected raw. -/
def feedChunk (st : TState) (chunk : List Nat) : TState :=
  if !st.headersParsed then
    let headerBuffer := st.headerBuffer ++ utf8Decode chunk
    match indexOfSub crlfcrlf headerBuffer with
    | some i =>
        let headerPart := headerBuffer.take i
        let bodyPart := headerBuffer.drop (i + 4)
        let parsed := parseHeaderBlock headerPart
        { headersParsed := true, headerBuffer := headerBuffer,
          responseStatus := parsed.1, responseStatusText := parsed.2.1,
          responseHeaders := parsed.2.2,
          bodyChunks := st.bodyChunks ++
            (if !bodyPart.isEmpty then [utf8Encode bodyPart] else []) }
    | none => { st with headerBuffer := headerBuffer }
  else { st with bodyChunks := st.bodyChunks ++ [chunk] }

/-- The parsed response observed by the caller on the success path:
status, status text, headers and the concatenated body bytes
(`Buffer.concat(bodyChunks)`). -/
structure TransportResult where
  status : Nat
  statusText : List Nat
  headers : List (List Nat × List Nat)
  body : List Nat
deriving DecidableEq, Repr

/-- Feed a sequence of stdout chunks and read off the final response. -/
def runTransport (chunks : List (List Nat)) : TransportResult :=
  let st := chunks.foldl feedChunk initTState
  { status := st.responseStatus, statusText := st.responseStatusText,
    headers := st.responseHeaders, body := st.bodyChunks.flatten }

/-! ## Concrete inputs and error-handling definitions (C2, C4-C7 and witnesses) -/

/-- The `textContent` accumulation of the Claude content loop, in isolation. -/
def claudeTextStep (acc : String) : ClaudeItem → String
  | .text t => acc ++ t.getD ""
  | _ => acc

/-- The `messageSignature` accumulation of the Claude content loop, in
isolation. -/
def claudeSigStep (acc : Option String) : ClaudeItem → Option String
  | .thinking signature => if !(truthy acc) && truthy signature then signature else acc
  | _ => acc

/-- The text content a Claude assistant content resolves to. -/
def claudeTextContent : ClaudeContent → String
  | .str s => s
  | .arr items => items.foldl claudeTextStep ""
  | .nullContent => ""

/-- The first truthy thinking-block signature of a Claude assistant content. -/
def claudeMsgSignature : ClaudeContent → Option String
  | .arr items => items.foldl claudeSigStep none
  | _ => none

/-- An assistant message with empty text and a single tool call, as in the
merge-law scenario `modelMsg(text="", toolCalls=[A])`. -/
def toolOnlyAssistantMsg (A : OpenAIToolCall) : OpenAIAssistantMsg :=
  { content := some "", reasoning_content := none, thoughtSignature := none, tool_calls := [A] }

/-- The list of content blocks of a Claude content (empty for the string and
null forms). -/
def claudeItemsOf : ClaudeContent → List ClaudeItem
  | .arr items => items
  | _ => []

/-- The functionCall part a `tool_use` block is converted to, with the
signature chain written as a first-truthy-wins precedence list. -/
def claudeToolUsePart (env : ConvEnv) (ctx : SignatureContext) : ClaudeItem → Option Part
  | .tool_use id name input sig =>
      some (Part.functionCall
        { id := id, name := processToolName env name,
          args := .query (input.getD "\x7b\x7d") }
        (firstTruthy [sig, ctx.toolSignature, ctx.reasoningSignature]))
  | _ => none

/-- Environment of the C2 counterexample: cache reads enabled, a cached tool
signature `CT` present for every key, no cached reasoning signature, no
fallback signatures. -/
def cexEnv : ConvEnv :=
  { useCachedSignature := true, useFallbackSignature := true,
    cacheOnlyToolSignatures := false,
    getReasoningSignature := fun _ _ => none,
    getToolSignature := fun _ _ => some "CT",
    getThoughtSignatureForModel := fun _ => none,
    getToolSignatureForModel := fun _ => none,
    sanitizeToolName := fun s => s }

/-- A tool call carrying no explicit signature of its own. -/
def cexToolCall : OpenAIToolCall :=
  { id := "call-1", function := { name := "lookup", arguments := .obj "argsObj" },
    thoughtSignature := none }

/-- An assistant message carrying an explicit message-level signature `MSG`
and the signature-less tool call. -/
def cexAssistantMsg : OpenAIAssistantMsg :=
  { content := none, reasoning_content := none, thoughtSignature := some "MSG",
    tool_calls := [cexToolCall] }

/-- Assistant message used by witnesses: plain text plus reasoning text. -/
def wMsg : OpenAIAssistantMsg :=
  { content := some "Hi", reasoning_content := some "because", thoughtSignature := none,
    tool_calls := [] }

/-- A functionCall part used by witnesses. -/
def wCallPart : Part := .functionCall { id := "id-7", name := "searchDocs", args := .obj "q" } none

/-- A model message holding the witness functionCall part. -/
def wMsgCall : Message := { role := .model, parts := [wCallPart] }

/-- A model message without functionCall parts. -/
def wInter : Message := { role := .model, parts := [.text "done"] }

/-- A built model message with a thought part, a tool call and no content,
used by the C10 witness. -/
def wBuilt : BuiltModelMsg :=
  { parts := [Part.thought "t" (some "S")], toolCalls := [wCallPart], hasContent := false }

/-- An all-ASCII raw response: `HTTP/1.1 200 OK CRLF x-A: b CRLF CRLF hi`. -/
def asciiResp : List Nat :=
  [72, 84, 84, 80, 47, 49, 46, 49, 32, 50, 48, 48, 32, 79, 75, 13, 10,
   120, 45, 65, 58, 32, 98, 13, 10, 13, 10, 104, 105]

/-- A raw response whose body is the two-byte UTF-8 character U+00E9
(bytes C3 A9): `HTTP/1.1 200 OK CRLF CRLF 0xC3 0xA9`. -/
def utf8Resp : List Nat :=
  [72, 84, 84, 80, 47, 49, 46, 49, 32, 50, 48, 48, 32, 79, 75, 13, 10, 13, 10, 195, 169]

/-- Modelled from the spec: `createApiError` (imported from
`src/utils/errors.js`, which is not under src/) builds the thrown error,
carrying the message together with the upstream status and the raw error body
for diagnosability. -/
structure ApiError where
  message : String
  status : Nat
  errorBody : String
deriving DecidableEq, Repr

def createApiError (message : String) (status : Nat) (errorBody : String) : ApiError :=
  { message := message, status := status, errorBody := errorBody }

/-- Message of the context-too-large error thrown by `handleApiError`. -/
def contextTooLargeMessage (errorBody : String) : String :=
  "超出模型最大上下文。错误详情: " ++ errorBody

/-- Message of the account-disabled error thrown by `handleApiError`. -/
def accountDisabledMessage (errorBody : String) : String :=
  "该账号没有使用权限，已自动禁用。错误详情: " ++ errorBody

/-- Message of the generic upstream error thrown by `handleApiError`. -/
def genericApiMessage (status : Nat) (errorBody : String) : String :=
  "API请求失败 (" ++ toString status ++ "): " ++ errorBody

/-- `requester.js` `handleApiError`, given the already-read upstream status
and error body.  `isCallerDoesNotHavePermission` is the context-window marker
test on the error body (modelled from the spec: it is imported from
`upstreamError.js`, which is not under src/).  The second component counts
the `tokenManager.disableCurrentToken` invocations; the returned `ApiError`
is the error the function throws. -/
def handleApiError (isCallerDoesNotHavePermission : String → Bool) (status : Nat)
    (errorBody : String) : ApiError × Nat :=
  if status == 403 then
    if isCallerDoesNotHavePermission errorBody then
      (createApiError (contextTooLargeMessage errorBody) status errorBody, 0)
    else
      (createApiError (accountDisabledMessage errorBody) status errorBody, 1)
  else (createApiError (genericApiMessage status errorBody) status errorBody, 0)

/-- The `{error, error_type}` object the transport subprocess emits on its
error stream. -/
structure JsErrObj where
  error : Option String
  error_type : Option String
deriving DecidableEq, Repr

/-- The error the buffered call rejects with on a non-zero exit. -/
structure ProcError where
  message : String
  code : String
  errorType : Option String
  exitCode : Nat
deriving DecidableEq, Repr

/-- `error.code = code === 3 ? 'ECONNABORTED' : code === 4 ? 'ERR_CONFIG'
: 'ERR_NETWORK'`. -/
def classifyExit (code : Nat) : String :=
  if code == 3 then "ECONNABORTED" else if code == 4 then "ERR_CONFIG" else "ERR_NETWORK"

/-- The non-zero-exit branch of the close handler in
`FingerprintRequester.request`.  `parseJson` abstracts `JSON.parse` of the
stderr text into the `{error, error_type}` shape (`none` when it throws);
`new Error(undefined)` yields an empty message, modelled by `getD ""`. -/
def buildProcessExitError (parseJson : String → Option JsErrObj) (code : Nat)
    (stderrData : String) : ProcError :=
  let defaultInfo : JsErrObj :=
    { error := some ("Process exited with code " ++ toString code),
      error_type := some "UNKNOWN_ERROR" }
  let errorInfo :=
    if stderrData ≠ "" then
      match parseJson stderrData with
      | some obj => obj
      | none => { defaultInfo with error := some stderrData }
    else defaultInfo
  { message := (errorInfo.error).getD "", code := classifyExit code,
    errorType := errorInfo.error_type, exitCode := code }

/-- Subprocess error object used by the C6 witness. -/
def wErrObj : JsErrObj := { error := some "connect timed out", error_type := some "TIMEOUT_ERROR" }

/-- JS `s.toLowerCase().includes(pat)`, with ASCII lower-casing at the
code-point level (content-encoding values on this wire are ASCII). -/
def lowerIncludes (s pat : String) : Bool :=
  (indexOfSub (pat.data.map Char.toNat) (lowerBytes (s.data.map Char.toNat))).isSome

/-- The gzip post-processing of the buffered response body in
`FingerprintRequester.request` (lines 254-266): when decompression is not
skipped and the `content-encoding` header contains `gzip`, `decompressGzip`
is attempted; a failure (`gunzip` = `none`, the promise rejecting) is caught,
only logged, and the raw buffer is used unchanged.  The function is total:
no exception escapes this stage. -/
def postProcessBody (gunzip : List Nat → Option (List Nat)) (skipGzipDecompress : Bool)
    (contentEncoding : String) (bodyBuffer : List Nat) : List Nat :=
  if !skipGzipDecompress && lowerIncludes contentEncoding "gzip" then
    match gunzip bodyBuffer with
    | some out => out
    | none => bodyBuffer
  else bodyBuffer

/-! ## Helper lemmas -/

theorem thoughtCount_nil : thoughtCount [] = 0 := rfl

theorem thoughtCount_append (a b : List Part) :
    thoughtCount (a ++ b) = thoughtCount a + thoughtCount b :=
  List.countP_append ..

theorem isThoughtPart_createFunctionCallPart (id name : String) (args : ArgsIn)
    (sig : Option String) : isThoughtPart (createFunctionCallPart id name args sig) = false := rfl

theorem thoughtCount_map_eq_zero {α : Type} (l : List α) (f : α → Part)
    (h : ∀ x, isThoughtPart (f x) = false) : thoughtCount (l.map f) = 0 := by
  simp only [thoughtCount, List.countP_map]
  exact List.countP_eq_zero.mpr (fun a _ => by simp [Function.comp, h a])

theorem thoughtCount_singleton_fc (id name : String) (args : ArgsIn) (sig : Option String) :
    thoughtCount [createFunctionCallPart id name args sig] = 0 := rfl

theorem thoughtCount_openaiToolCalls (env : ConvEnv) (m : OpenAIAssistantMsg)
    (enableThinking : Bool) (actualModelName sessionId : String) (hasTools : Bool) :
    thoughtCount (buildOpenaiAssistant env m enableThinking actualModelName sessionId hasTools).toolCalls = 0 := by
  simp only [buildOpenaiAssistant]
  split
  · exact thoughtCount_map_eq_zero _ _ (fun tc => rfl)
  · rfl

theorem claudeScan_toolCalls_thoughtCount (env : ConvEnv) (enableThinking : Bool)
    (ctx : SignatureContext) (items : List ClaudeItem) :
    ∀ s : ClaudeScan,
      thoughtCount ((items.foldl (claudeScanStep env enableThinking ctx) s).toolCalls) =
        thoughtCount s.toolCalls := by
  induction items with
  | nil => intro s; rfl
  | cons it rest ih =>
      intro s
      cases it with
      | text t => simpa using ih _
      | thinking sig =>
          simp only [List.foldl_cons, claudeScanStep]
          split <;> simpa using ih _
      | tool_use id name input sig =>
          simp only [List.foldl_cons, claudeScanStep]
          rw [ih]
          simp [thoughtCount_append, thoughtCount_singleton_fc]
      | tool_result id rc => simpa using ih _
      | image src => simpa using ih _
      | otherItem => simpa using ih _

theorem thoughtCount_claudeToolCalls (env : ConvEnv) (content : ClaudeContent)
    (enableThinking : Bool) (actualModelName sessionId : String) (hasTools : Bool) :
    thoughtCount (buildClaudeAssistant env content enableThinking actualModelName sessionId hasTools).toolCalls = 0 := by
  unfold buildClaudeAssistant claudeScanContent
  cases content with
  | str s => rfl
  | arr items => exact claudeScan_toolCalls_thoughtCount env enableThinking _ items ⟨"", [], none⟩
  | nullContent => rfl

theorem truthy_some_iff (s : String) : truthy (some s) = true ↔ s ≠ "" := by
  simp [truthy]

theorem thoughtCount_singleton_text (t : String) : thoughtCount [Part.text t] = 0 := rfl

theorem thoughtCount_thought_cons (t : String) (sig : Option String) (l : List Part) :
    thoughtCount (Part.thought t sig :: l) = thoughtCount l + 1 := by
  simp [thoughtCount, List.countP_cons, isThoughtPart]

theorem claudeScanStep_textContent (env : ConvEnv) (enableThinking : Bool)
    (ctx : SignatureContext) (s : ClaudeScan) (it : ClaudeItem) :
    (claudeScanStep env enableThinking ctx s it).textContent = claudeTextStep s.textContent it := by
  cases it <;> simp [claudeScanStep, claudeTextStep]
  split <;> rfl

theorem claudeScanStep_messageSignature (env : ConvEnv) (enableThinking : Bool)
    (ctx : SignatureContext) (s : ClaudeScan) (it : ClaudeItem) :
    (claudeScanStep env enableThinking ctx s it).messageSignature =
      claudeSigStep s.messageSignature it := by
  cases it <;> simp [claudeScanStep, claudeSigStep]
  split <;> rfl

theorem claudeScan_foldl_textContent (env : ConvEnv) (enableThinking : Bool)
    (ctx : SignatureContext) (items : List ClaudeItem) :
    ∀ s : ClaudeScan,
      (items.foldl (claudeScanStep env enableThinking ctx) s).textContent =
        items.foldl claudeTextStep s.textContent := by
  induction items with
  | nil => intro s; rfl
  | cons it rest ih =>
      intro s
      simp only [List.foldl_cons, ih, claudeScanStep_textContent]

theorem claudeScan_foldl_messageSignature (env : ConvEnv) (enableThinking : Bool)
    (ctx : SignatureContext) (items : List ClaudeItem) :
    ∀ s : ClaudeScan,
      (items.foldl (claudeScanStep env enableThinking ctx) s).messageSignature =
        items.foldl claudeSigStep s.messageSignature := by
  induction items with
  | nil => intro s; rfl
  | cons it rest ih =>
      intro s
      simp only [List.foldl_cons, ih, claudeScanStep_messageSignature]

theorem claudeScanContent_textContent (env : ConvEnv) (enableThinking : Bool)
    (ctx : SignatureContext) (cc : ClaudeContent) :
    (claudeScanContent env enableThinking ctx cc).textContent = claudeTextContent cc := by
  cases cc with
  | str s => rfl
  | arr items => exact claudeScan_foldl_textContent env enableThinking ctx items ⟨"", [], none⟩
  | nullContent => rfl

theorem claudeScanContent_messageSignature (env : ConvEnv) (enableThinking : Bool)
    (ctx : SignatureContext) (cc : ClaudeContent) :
    (claudeScanContent env enableThinking ctx cc).messageSignature = claudeMsgSignature cc := by
  cases cc with
  | str s => rfl
  | arr items => exact claudeScan_foldl_messageSignature env enableThinking ctx items ⟨"", [], none⟩
  | nullContent => rfl

theorem resolveClaudeThoughtSig_eq (env : ConvEnv) (cc : ClaudeContent)
    (actualModelName sessionId : String) (hasTools : Bool) :
    resolveClaudeThoughtSig env cc actualModelName sessionId hasTools =
      jsOr (claudeMsgSignature cc)
        (jsOr (getSignatureContext env sessionId actualModelName hasTools).reasoningSignature
          (getSignatureContext env sessionId actualModelName hasTools).toolSignature) := by
  simp only [resolveClaudeThoughtSig, claudeScanContent_messageSignature]

theorem openaiReasoningText_ne_empty (m : OpenAIAssistantMsg) : openaiReasoningText m ≠ "" := by
  unfold openaiReasoningText
  cases m.reasoning_content with
  | none => decide
  | some s =>
      by_cases h : s.length > 0
      · simp only [h, if_true]
        intro hs
        subst hs
        simp at h
      · simp only [h, if_false]
        decide

theorem buildOpenaiAssistant_parts_eq (env : ConvEnv) (m : OpenAIAssistantMsg) (eT : Bool)
    (actualModelName sessionId : String) (hasTools : Bool) :
    (buildOpenaiAssistant env m eT actualModelName sessionId hasTools).parts =
      (if eT && truthy (resolveOpenaiThoughtSig env m actualModelName sessionId hasTools) then
        [Part.thought (openaiReasoningText m)
          (resolveOpenaiThoughtSig env m actualModelName sessionId hasTools)]
      else []) ++
      (if !(jsTrim (m.content.getD "") == "") then [Part.text (jsTrimEnd (m.content.getD ""))]
       else []) := by
  simp only [buildOpenaiAssistant]
  cases eT with
  | false =>
      by_cases hc : (!(jsTrim (m.content.getD "") == "")) = true
      · simp [hc, deleteFirstThoughtSignature, deleteThoughtSignature]
      · simp [hc, deleteFirstThoughtSignature]
  | true =>
      by_cases hs : truthy (resolveOpenaiThoughtSig env m actualModelName sessionId hasTools)
      · simp [hs, createThoughtPart, openaiReasoningText_ne_empty m]
      · simp [hs]

theorem buildClaudeAssistant_parts_eq (env : ConvEnv) (cc : ClaudeContent) (eT : Bool)
    (actualModelName sessionId : String) (hasTools : Bool) :
    (buildClaudeAssistant env cc eT actualModelName sessionId hasTools).parts =
      (if eT && truthy (resolveClaudeThoughtSig env cc actualModelName sessionId hasTools) then
        [Part.thought " " (resolveClaudeThoughtSig env cc actualModelName sessionId hasTools)]
      else []) ++
      (if !(jsTrim (claudeTextContent cc) == "") then [Part.text (jsTrimEnd (claudeTextContent cc))]
       else []) := by
  simp only [buildClaudeAssistant, claudeScanContent_textContent,
    claudeScanContent_messageSignature]
  rw [show jsOr (claudeMsgSignature cc)
        (jsOr (getSignatureContext env sessionId actualModelName hasTools).reasoningSignature
          (getSignatureContext env sessionId actualModelName hasTools).toolSignature) =
      resolveClaudeThoughtSig env cc actualModelName sessionId hasTools from
    (resolveClaudeThoughtSig_eq env cc actualModelName sessionId hasTools).symm]
  cases eT with
  | false =>
      by_cases hc : (!(jsTrim (claudeTextContent cc) == "")) = true
      · simp [hc, deleteFirstThoughtSignature, deleteThoughtSignature]
      · simp [hc, deleteFirstThoughtSignature]
  | true =>
      by_cases hs : truthy (resolveClaudeThoughtSig env cc actualModelName sessionId hasTools)
      · simp [hs, createThoughtPart]
      · simp [hs]

theorem pushModelMessage_nil (b : BuiltModelMsg) :
    pushModelMessage b [] = [{ role := .model, parts := b.parts ++ b.toolCalls }] := rfl

theorem pushModelMessage_merge (b : BuiltModelMsg) (pre : List Message) (last : Message)
    (hrole : last.role = .model) (htc : b.toolCalls ≠ []) (hhc : b.hasContent = false) :
    pushModelMessage b (pre ++ [last]) =
      pre ++ [{ role := .model, parts := last.parts ++ b.toolCalls }] := by
  obtain ⟨r, p⟩ := last
  have hr : r = Role.model := hrole
  subst hr
  unfold pushModelMessage
  rw [List.getLast?_concat]
  simp [hhc, List.isEmpty_eq_false.mpr htc, List.dropLast_concat]

theorem buildOpenaiAssistant_toolCalls_eq (env : ConvEnv) (m : OpenAIAssistantMsg) (eT : Bool)
    (actualModelName sessionId : String) (hasTools : Bool) :
    (buildOpenaiAssistant env m eT actualModelName sessionId hasTools).toolCalls =
      (if !m.tool_calls.isEmpty then
        m.tool_calls.map (fun toolCall =>
          createFunctionCallPart toolCall.id (processToolName env toolCall.function.name)
            toolCall.function.arguments
            (if eT then
              jsOr toolCall.thoughtSignature
                (jsOr (getSignatureContext env sessionId actualModelName hasTools).toolSignature
                  (jsOr m.thoughtSignature
                    (getSignatureContext env sessionId actualModelName hasTools).reasoningSignature))
            else none))
      else []) := by
  simp only [buildOpenaiAssistant]

theorem buildOpenaiAssistant_hasContent_eq (env : ConvEnv) (m : OpenAIAssistantMsg) (eT : Bool)
    (actualModelName sessionId : String) (hasTools : Bool) :
    (buildOpenaiAssistant env m eT actualModelName sessionId hasTools).hasContent =
      !(jsTrim (m.content.getD "") == "") := by
  simp only [buildOpenaiAssistant]

theorem getFC_createFunctionCallPart (id name : String) (args : ArgsIn) (sig : Option String) :
    getFC (createFunctionCallPart id name args sig) =
      some { id := id, name := name, args := normalizeArgs args } := rfl

theorem getFC_thought (t : String) (sig : Option String) : getFC (Part.thought t sig) = none := rfl

theorem getFC_text (t : String) : getFC (Part.text t) = none := rfl

theorem filterMap_getFC_openaiParts (env : ConvEnv) (m : OpenAIAssistantMsg) (eT : Bool)
    (actualModelName sessionId : String) (hasTools : Bool) :
    (buildOpenaiAssistant env m eT actualModelName sessionId hasTools).parts.filterMap getFC = [] := by
  rw [buildOpenaiAssistant_parts_eq]
  by_cases h1 : (eT && truthy (resolveOpenaiThoughtSig env m actualModelName sessionId hasTools)) = true <;>
  by_cases h2 : (!(jsTrim (m.content.getD "") == "")) = true <;>
    simp [h1, h2, getFC_thought, getFC_text]

/-! ## Claim theorems -/

/-- C1: for every assistant/model message encoded to canonical form, over both
the OpenAI and the Claude encoder: with thinking disabled the produced parts
(the thought/text parts together with the tool-call parts handed to
`pushModelMessage`) never include a thought part, whatever the cache or
fallback tables hold; with thinking enabled and a resolvable signature
(explicit, cached or fallback — a truthy result of the resolution chain)
exactly one thought part is produced and it carries that signature; with
thinking enabled and no resolvable signature no thought part is produced. -/
theorem c1_thought_part_emission (env : ConvEnv) (m : OpenAIAssistantMsg) (cc : ClaudeContent)
    (actualModelName sessionId : String) (hasTools : Bool) :
    (thoughtCount ((buildOpenaiAssistant env m false actualModelName sessionId hasTools).parts ++
        (buildOpenaiAssistant env m false actualModelName sessionId hasTools).toolCalls) = 0)
    ∧ (∀ s : String, resolveOpenaiThoughtSig env m actualModelName sessionId hasTools = some s →
        s ≠ "" →
        thoughtCount ((buildOpenaiAssistant env m true actualModelName sessionId hasTools).parts ++
            (buildOpenaiAssistant env m true actualModelName sessionId hasTools).toolCalls) = 1
        ∧ (buildOpenaiAssistant env m true actualModelName sessionId hasTools).parts.head? =
            some (.thought (openaiReasoningText m) (some s)))
    ∧ (truthy (resolveOpenaiThoughtSig env m actualModelName sessionId hasTools) = false →
        thoughtCount ((buildOpenaiAssistant env m true actualModelName sessionId hasTools).parts ++
          (buildOpenaiAssistant env m true actualModelName sessionId hasTools).toolCalls) = 0)
    ∧ (thoughtCount ((buildClaudeAssistant env cc false actualModelName sessionId hasTools).parts ++
        (buildClaudeAssistant env cc false actualModelName sessionId hasTools).toolCalls) = 0)
    ∧ (∀ s : String, resolveClaudeThoughtSig env cc actualModelName sessionId hasTools = some s →
        s ≠ "" →
        thoughtCount ((buildClaudeAssistant env cc true actualModelName sessionId hasTools).parts ++
            (buildClaudeAssistant env cc true actualModelName sessionId hasTools).toolCalls) = 1
        ∧ (buildClaudeAssistant env cc true actualModelName sessionId hasTools).parts.head? =
            some (.thought " " (some s)))
    ∧ (truthy (resolveClaudeThoughtSig env cc actualModelName sessionId hasTools) = false →
        thoughtCount ((buildClaudeAssistant env cc true actualModelName sessionId hasTools).parts ++
          (buildClaudeAssistant env cc true actualModelName sessionId hasTools).toolCalls) = 0) := by
  refine ⟨?_, ?_, ?_, ?_, ?_, ?_⟩
  · rw [thoughtCount_append, thoughtCount_openaiToolCalls, buildOpenaiAssistant_parts_eq]
    by_cases hc : (!(jsTrim (m.content.getD "") == "")) = true <;>
      simp [hc, thoughtCount_append, thoughtCount_singleton_text, thoughtCount_nil]
  · intro s hres hs
    have hss : truthy (some s) = true := (truthy_some_iff s).mpr hs
    constructor
    · rw [thoughtCount_append, thoughtCount_openaiToolCalls, buildOpenaiAssistant_parts_eq, hres]
      by_cases hc : (!(jsTrim (m.content.getD "") == "")) = true <;>
        simp [hc, hss, thoughtCount_append, thoughtCount_singleton_text,
          thoughtCount_thought_cons, thoughtCount_nil]
    · rw [buildOpenaiAssistant_parts_eq, hres]
      simp [hss]
  · intro hfalse
    rw [thoughtCount_append, thoughtCount_openaiToolCalls, buildOpenaiAssistant_parts_eq]
    by_cases hc : (!(jsTrim (m.content.getD "") == "")) = true <;>
      simp [hc, hfalse, thoughtCount_append, thoughtCount_singleton_text, thoughtCount_nil]
  · rw [thoughtCount_append, thoughtCount_claudeToolCalls, buildClaudeAssistant_parts_eq]
    by_cases hc : (!(jsTrim (claudeTextContent cc) == "")) = true <;>
      simp [hc, thoughtCount_append, thoughtCount_singleton_text, thoughtCount_nil]
  · intro s hres hs
    have hss : truthy (some s) = true := (truthy_some_iff s).mpr hs
    constructor
    · rw [thoughtCount_append, thoughtCount_claudeToolCalls, buildClaudeAssistant_parts_eq, hres]
      by_cases hc : (!(jsTrim (claudeTextContent cc) == "")) = true <;>
        simp [hc, hss, thoughtCount_append, thoughtCount_singleton_text,
          thoughtCount_thought_cons, thoughtCount_nil]
    · rw [buildClaudeAssistant_parts_eq, hres]
      simp [hss]
  · intro hfalse
    rw [thoughtCount_append, thoughtCount_claudeToolCalls, buildClaudeAssistant_parts_eq]
    by_cases hc : (!(jsTrim (claudeTextContent cc) == "")) = true <;>
      simp [hc, hfalse, thoughtCount_append, thoughtCount_singleton_text, thoughtCount_nil]

/-- C3: encoding two consecutive assistant messages that each carry one tool
call and empty text yields exactly one canonical model-role message whose
functionCall parts are the two converted calls, first message's call first. -/
theorem c3_merge_law (env : ConvEnv) (eT : Bool) (actualModelName sessionId : String)
    (hasTools : Bool) (A B : OpenAIToolCall) :
    (openaiMessageToAntigravity env [.assistant (toolOnlyAssistantMsg A), .assistant (toolOnlyAssistantMsg B)]
        eT actualModelName sessionId hasTools).map Message.role = [.model]
    ∧ ((openaiMessageToAntigravity env [.assistant (toolOnlyAssistantMsg A), .assistant (toolOnlyAssistantMsg B)]
        eT actualModelName sessionId hasTools).map Message.parts).flatten.filterMap getFC =
      [{ id := A.id, name := processToolName env A.function.name,
         args := normalizeArgs A.function.arguments },
       { id := B.id, name := processToolName env B.function.name,
         args := normalizeArgs B.function.arguments }] := by
  have hBtc : (buildOpenaiAssistant env (toolOnlyAssistantMsg B)
      eT actualModelName sessionId hasTools).toolCalls ≠ [] := by
    rw [buildOpenaiAssistant_toolCalls_eq]
    simp [toolOnlyAssistantMsg]
  have hBhc : (buildOpenaiAssistant env (toolOnlyAssistantMsg B)
      eT actualModelName sessionId hasTools).hasContent = false := by
    rw [buildOpenaiAssistant_hasContent_eq]
    rfl
  have key : openaiMessageToAntigravity env
      [.assistant (toolOnlyAssistantMsg A), .assistant (toolOnlyAssistantMsg B)]
      eT actualModelName sessionId hasTools =
      [{ role := .model,
         parts := ((buildOpenaiAssistant env (toolOnlyAssistantMsg A)
             eT actualModelName sessionId hasTools).parts ++
           (buildOpenaiAssistant env (toolOnlyAssistantMsg A)
             eT actualModelName sessionId hasTools).toolCalls) ++
           (buildOpenaiAssistant env (toolOnlyAssistantMsg B)
             eT actualModelName sessionId hasTools).toolCalls }] := by
    exact pushModelMessage_merge _ []
      { role := .model,
        parts := (buildOpenaiAssistant env (toolOnlyAssistantMsg A)
            eT actualModelName sessionId hasTools).parts ++
          (buildOpenaiAssistant env (toolOnlyAssistantMsg A)
            eT actualModelName sessionId hasTools).toolCalls }
      rfl hBtc hBhc
  rw [key]
  refine ⟨rfl, ?_⟩
  simp [List.filterMap_append, filterMap_getFC_openaiParts, buildOpenaiAssistant_toolCalls_eq,
    getFC_createFunctionCallPart, processToolName, toolOnlyAssistantMsg]

/-- C10: when the merge branch of `pushModelMessage` is taken (previous
canonical message is model-role, incoming model message has tool calls and no
non-empty text), only the incoming tool-call parts are appended to the
previous message: the built `parts` (in particular a thought part) are
discarded, the previous message's existing parts are unchanged in value and
order, and all earlier messages are untouched.  The second clause instantiates
this for the OpenAI assistant handler. -/
theorem c10_merge_discards_parts :
    (∀ (b : BuiltModelMsg) (pre : List Message) (last : Message),
      last.role = .model → b.toolCalls ≠ [] → b.hasContent = false →
      pushModelMessage b (pre ++ [last]) =
        pre ++ [{ role := .model, parts := last.parts ++ b.toolCalls }])
    ∧ (∀ (env : ConvEnv) (m : OpenAIAssistantMsg) (pre : List Message) (last : Message)
        (eT : Bool) (actualModelName sessionId : String) (hasTools : Bool),
      last.role = .model → m.tool_calls ≠ [] → jsTrim (m.content.getD "") = "" →
      handleAssistantMessage env m (pre ++ [last]) eT actualModelName sessionId hasTools =
        pre ++ [{ role := .model,
                  parts := last.parts ++
                    (buildOpenaiAssistant env m eT actualModelName sessionId hasTools).toolCalls }]) := by
  constructor
  · intro b pre last hrole htc hhc
    exact pushModelMessage_merge b pre last hrole htc hhc
  · intro env m pre last eT actualModelName sessionId hasTools hrole htc hcontent
    apply pushModelMessage_merge _ _ _ hrole
    · rw [buildOpenaiAssistant_toolCalls_eq]
      simp [List.isEmpty_eq_false.mpr htc, List.map_eq_nil_iff, htc]
    · rw [buildOpenaiAssistant_hasContent_eq, hcontent]
      rfl

/-- C8: a tool result whose call id matches a functionCall part two canonical
messages back, with an intervening model-only message that does not contain
that id, resolves to that part's function name (the lookup scans model-role
messages backward), and its encoding appends a user message holding the
functionResponse part with the resolved name. -/
theorem c8_tool_result_resolution (pre : List Message) (m inter : Message)
    (id c name : String) (hm : m.role = .model) (hi : inter.role = .model)
    (hnone : findInParts id inter.parts = none) (hfound : findInParts id m.parts = some name) :
    findFunctionNameById id (pre ++ [m, inter]) = name
    ∧ handleToolCall id c (pre ++ [m, inter]) =
        pre ++ [m, inter, { role := .user, parts := [.functionResponse id name c] }] := by
  have hfind : findFunctionNameById id (pre ++ [m, inter]) = name := by
    unfold findFunctionNameById
    have hrev : (pre ++ [m, inter]).reverse = inter :: m :: pre.reverse := by simp
    rw [hrev]
    simp [findNameLoop, hi, hnone, hm, hfound]
  refine ⟨hfind, ?_⟩
  unfold handleToolCall
  rw [hfind]
  unfold pushFunctionResponse
  have hlast : (pre ++ [m, inter]).getLast? = some inter := by
    rw [show pre ++ [m, inter] = (pre ++ [m]) ++ [inter] by simp]
    exact List.getLast?_concat _
  rw [hlast]
  simp [hi]

theorem fcSignatureNone_text (t : String) : fcSignatureNone (Part.text t) = true := rfl

theorem fcSignatureNone_inlineData (mt d : String) :
    fcSignatureNone (Part.inlineData mt d) = true := rfl

theorem fcSignatureNone_functionResponse (id n c : String) :
    fcSignatureNone (Part.functionResponse id n c) = true := rfl

theorem fcSignatureNone_thought (t : String) (sig : Option String) :
    fcSignatureNone (Part.thought t sig) = true := rfl

theorem fcSignatureNone_createFCP_none (id n : String) (a : ArgsIn) :
    fcSignatureNone (createFunctionCallPart id n a none) = true := rfl

theorem noFcSigs_nil : noFcSigs [] = true := rfl

theorem noFcSigs_append_single (msgs : List Message) (x : Message) :
    noFcSigs (msgs ++ [x]) = (noFcSigs msgs && x.parts.all fcSignatureNone) := by
  simp [noFcSigs, List.all_append]

theorem noFcSigs_decomp (msgs : List Message) (last : Message)
    (hl : msgs.getLast? = some last) (h : noFcSigs msgs = true) :
    noFcSigs msgs.dropLast = true ∧ last.parts.all fcSignatureNone = true := by
  have e := List.dropLast_append_getLast? last hl
  rw [← e, noFcSigs_append_single] at h
  simpa using h

theorem noFcSigs_pushFunctionResponse (id n c : String) (msgs : List Message)
    (h : noFcSigs msgs = true) : noFcSigs (pushFunctionResponse id n c msgs) = true := by
  rcases hl : msgs.getLast? with _ | last
  · simp only [pushFunctionResponse, hl]
    rw [noFcSigs_append_single]
    simp [h, fcSignatureNone_functionResponse]
  · obtain ⟨hd, hlast⟩ := noFcSigs_decomp msgs last hl h
    simp only [pushFunctionResponse, hl]
    split
    · rw [noFcSigs_append_single]
      simp [hd, List.all_append, hlast, fcSignatureNone_functionResponse]
    · rw [noFcSigs_append_single]
      simp [h, fcSignatureNone_functionResponse]

theorem noFcSigs_pushModelMessage (b : BuiltModelMsg) (msgs : List Message)
    (hp : b.parts.all fcSignatureNone = true) (htc : b.toolCalls.all fcSignatureNone = true)
    (h : noFcSigs msgs = true) : noFcSigs (pushModelMessage b msgs) = true := by
  rcases hl : msgs.getLast? with _ | last
  · simp only [pushModelMessage, hl]
    rw [noFcSigs_append_single]
    simp [h, List.all_append, hp, htc]
  · obtain ⟨hd, hlast⟩ := noFcSigs_decomp msgs last hl h
    simp only [pushModelMessage, hl]
    split
    · rw [noFcSigs_append_single]
      simp [hd, List.all_append, hlast, htc]
    · rw [noFcSigs_append_single]
      simp [h, List.all_append, hp, htc]

theorem noFcSigs_pushUserMessage (e : Extracted) (msgs : List Message)
    (him : e.images.all fcSignatureNone = true) (h : noFcSigs msgs = true) :
    noFcSigs (pushUserMessage e msgs) = true := by
  unfold pushUserMessage
  rw [noFcSigs_append_single]
  simp [h, him, fcSignatureNone_text]

theorem openaiExtract_images_all (items : List OpenAIContentItem) :
    ∀ acc : Extracted, acc.images.all fcSignatureNone = true →
      ((items.foldl openaiExtractStep acc).images.all fcSignatureNone = true) := by
  induction items with
  | nil => intro acc h; simpa using h
  | cons it rest ih =>
      intro acc h
      apply ih
      cases it with
      | text t => simpa [openaiExtractStep] using h
      | image_url url =>
          simp only [openaiExtractStep, openaiExtractImage]
          generalize parseDataImageUrl url = r
          cases r with
          | none => simpa using h
          | some p =>
              obtain ⟨ext, dataPart⟩ := p
              simp [List.all_append, h, fcSignatureNone_inlineData]
      | otherItem => simpa [openaiExtractStep] using h

theorem extractImagesFromContent_images_all (c : OpenAIContent) :
    (extractImagesFromContent c).images.all fcSignatureNone = true := by
  cases c with
  | str s => rfl
  | arr items => exact openaiExtract_images_all items ⟨"", []⟩ rfl
  | nullContent => rfl

theorem claudeExtract_images_all (items : List ClaudeItem) :
    ∀ acc : Extracted, acc.images.all fcSignatureNone = true →
      ((items.foldl claudeExtractStep acc).images.all fcSignatureNone = true) := by
  induction items with
  | nil => intro acc h; simpa using h
  | cons it rest ih =>
      intro acc h
      apply ih
      cases it with
      | text t => simpa [claudeExtractStep] using h
      | image source =>
          simp only [claudeExtractStep, claudeExtractImage]
          cases source with
          | none => simpa using h
          | some src =>
              by_cases hcond : (src.type_ == "base64" && truthy src.data) = true
              · simp [hcond, List.all_append, h, fcSignatureNone_inlineData]
              · simp [hcond, h]
      | thinking sig => simpa [claudeExtractStep] using h
      | tool_use id n i sig => simpa [claudeExtractStep] using h
      | tool_result id rc => simpa [claudeExtractStep] using h
      | otherItem => simpa [claudeExtractStep] using h

theorem extractImagesFromClaudeContent_images_all (c : ClaudeContent) :
    (extractImagesFromClaudeContent c).images.all fcSignatureNone = true := by
  cases c with
  | str s => rfl
  | arr items => exact claudeExtract_images_all items ⟨"", []⟩ rfl
  | nullContent => rfl

theorem openaiToolCalls_sigNone (env : ConvEnv) (m : OpenAIAssistantMsg)
    (actualModelName sessionId : String) (hasTools : Bool) :
    (buildOpenaiAssistant env m false actualModelName sessionId hasTools).toolCalls.all
      fcSignatureNone = true := by
  rw [buildOpenaiAssistant_toolCalls_eq]
  split
  · simp only [List.all_eq_true]
    intro p hp
    obtain ⟨tc, _, rfl⟩ := List.mem_map.mp hp
    exact fcSignatureNone_createFCP_none _ _ _
  · rfl

theorem openaiParts_sigNone_false (env : ConvEnv) (m : OpenAIAssistantMsg)
    (actualModelName sessionId : String) (hasTools : Bool) :
    (buildOpenaiAssistant env m false actualModelName sessionId hasTools).parts.all
      fcSignatureNone = true := by
  rw [buildOpenaiAssistant_parts_eq]
  by_cases hc : (!(jsTrim (m.content.getD "") == "")) = true <;>
    simp [hc, fcSignatureNone_text]

theorem buildClaudeAssistant_toolCalls_eq (env : ConvEnv) (cc : ClaudeContent) (eT : Bool)
    (actualModelName sessionId : String) (hasTools : Bool) :
    (buildClaudeAssistant env cc eT actualModelName sessionId hasTools).toolCalls =
      (claudeScanContent env eT (getSignatureContext env sessionId actualModelName hasTools)
        cc).toolCalls := by
  simp only [buildClaudeAssistant]

theorem claudeScan_toolCalls_sigNone (env : ConvEnv) (ctx : SignatureContext)
    (items : List ClaudeItem) :
    ∀ s : ClaudeScan, s.toolCalls.all fcSignatureNone = true →
      ((items.foldl (claudeScanStep env false ctx) s).toolCalls.all fcSignatureNone = true) := by
  induction items with
  | nil => intro s h; simpa using h
  | cons it rest ih =>
      intro s h
      apply ih
      cases it with
      | text t => simpa [claudeScanStep] using h
      | thinking sig =>
          simp only [claudeScanStep]
          split
          · simpa using h
          · simpa using h
      | tool_use id n i sig =>
          simp only [claudeScanStep]
          simp [List.all_append, h, fcSignatureNone_createFCP_none]
      | tool_result id rc => simpa [claudeScanStep] using h
      | image src => simpa [claudeScanStep] using h
      | otherItem => simpa [claudeScanStep] using h

theorem claudeToolCalls_sigNone (env : ConvEnv) (cc : ClaudeContent)
    (actualModelName sessionId : String) (hasTools : Bool) :
    (buildClaudeAssistant env cc false actualModelName sessionId hasTools).toolCalls.all
      fcSignatureNone = true := by
  rw [buildClaudeAssistant_toolCalls_eq]
  cases cc with
  | str s => rfl
  | arr items =>
      exact claudeScan_toolCalls_sigNone env _ items ⟨"", [], none⟩ rfl
  | nullContent => rfl

theorem claudeParts_sigNone_false (env : ConvEnv) (cc : ClaudeContent)
    (actualModelName sessionId : String) (hasTools : Bool) :
    (buildClaudeAssistant env cc false actualModelName sessionId hasTools).parts.all
      fcSignatureNone = true := by
  rw [buildClaudeAssistant_parts_eq]
  by_cases hc : (!(jsTrim (claudeTextContent cc) == "")) = true <;>
    simp [hc, fcSignatureNone_text]

theorem noFcSigs_handleClaudeToolResult (cc : ClaudeContent) (msgs : List Message)
    (h : noFcSigs msgs = true) : noFcSigs (handleClaudeToolResult cc msgs) = true := by
  unfold handleClaudeToolResult
  cases cc with
  | str s => exact h
  | nullContent => exact h
  | arr items =>
      induction items generalizing msgs with
      | nil => simpa using h
      | cons it rest ih =>
          simp only [List.foldl_cons]
          cases it with
          | text t => exact ih _ h
          | thinking sig => exact ih _ h
          | tool_use id n i sig => exact ih _ h
          | image src => exact ih _ h
          | otherItem => exact ih _ h
          | tool_result id rc => exact ih _ (noFcSigs_pushFunctionResponse _ _ _ _ h)

/-- C9: with the thinking-enabled flag false, no functionCall part produced by
either encoder ever carries a `thoughtSignature`, whatever the signature cache
and fallback tables contain. -/
theorem c9_no_fc_signature_without_thinking (env : ConvEnv) (msgsO : List OpenAIMessage)
    (msgsC : List ClaudeMessage) (actualModelName sessionId : String) (hasTools : Bool) :
    noFcSigs (openaiMessageToAntigravity env msgsO false actualModelName sessionId hasTools) = true
    ∧ noFcSigs (claudeMessageToAntigravity env msgsC false actualModelName sessionId hasTools) = true := by
  constructor
  · have main : ∀ (l : List OpenAIMessage) (acc : List Message), noFcSigs acc = true →
        noFcSigs (l.foldl (openaiStep env false actualModelName sessionId hasTools) acc) = true := by
      intro l
      induction l with
      | nil => intro acc h; simpa using h
      | cons msg rest ih =>
          intro acc h
          apply ih
          cases msg with
          | user c =>
              exact noFcSigs_pushUserMessage _ _ (extractImagesFromContent_images_all c) h
          | system c =>
              exact noFcSigs_pushUserMessage _ _ (extractImagesFromContent_images_all c) h
          | assistant m =>
              exact noFcSigs_pushModelMessage _ _
                (openaiParts_sigNone_false env m actualModelName sessionId hasTools)
                (openaiToolCalls_sigNone env m actualModelName sessionId hasTools) h
          | tool id c => exact noFcSigs_pushFunctionResponse _ _ _ _ h
          | otherRole => exact h
    exact main msgsO [] rfl
  · have main : ∀ (l : List ClaudeMessage) (acc : List Message), noFcSigs acc = true →
        noFcSigs (l.foldl (claudeStep env false actualModelName sessionId hasTools) acc) = true := by
      intro l
      induction l with
      | nil => intro acc h; simpa using h
      | cons msg rest ih =>
          intro acc h
          apply ih
          cases msg with
          | user c =>
              simp only [claudeStep]
              split
              · exact noFcSigs_handleClaudeToolResult c acc h
              · exact noFcSigs_pushUserMessage _ _ (extractImagesFromClaudeContent_images_all c) h
          | assistant c =>
              exact noFcSigs_pushModelMessage _ _
                (claudeParts_sigNone_false env c actualModelName sessionId hasTools)
                (claudeToolCalls_sigNone env c actualModelName sessionId hasTools) h
          | otherRole => exact h
    exact main msgsC [] rfl

theorem if_truthy_jsOr4 (a b c d : Option String) :
    (if truthy (jsOr a (jsOr b (jsOr c d))) then jsOr a (jsOr b (jsOr c d)) else none) =
      firstTruthy [a, b, c, d] := by
  by_cases ha : truthy a <;> by_cases hb : truthy b <;> by_cases hc : truthy c <;>
    by_cases hd : truthy d <;> simp [jsOr, firstTruthy, ha, hb, hc, hd]

theorem if_truthy_jsOr3 (a b c : Option String) :
    (if truthy (jsOr a (jsOr b c)) then jsOr a (jsOr b c) else none) =
      firstTruthy [a, b, c] := by
  by_cases ha : truthy a <;> by_cases hb : truthy b <;> by_cases hc : truthy c <;>
    simp [jsOr, firstTruthy, ha, hb, hc]

theorem firstTruthy3_jsOr (a b c : Option String) (s : String)
    (h : firstTruthy [a, b, c] = some s) :
    jsOr a (jsOr b c) = some s ∧ truthy (jsOr a (jsOr b c)) = true := by
  have e := if_truthy_jsOr3 a b c
  rw [h] at e
  by_cases ht : truthy (jsOr a (jsOr b c))
  · rw [if_pos ht] at e
    exact ⟨e, ht⟩
  · rw [if_neg ht] at e
    exact absurd e (by simp)

theorem claudeScan_toolCalls_eq (env : ConvEnv) (ctx : SignatureContext)
    (items : List ClaudeItem) :
    ∀ s : ClaudeScan,
      (items.foldl (claudeScanStep env true ctx) s).toolCalls =
        s.toolCalls ++ items.filterMap (claudeToolUsePart env ctx) := by
  induction items with
  | nil => intro s; simp
  | cons it rest ih =>
      intro s
      simp only [List.foldl_cons]
      rw [ih]
      cases it with
      | text t => simp [claudeScanStep, claudeToolUsePart]
      | thinking sig =>
          simp only [claudeScanStep]
          split <;> simp [claudeToolUsePart]
      | tool_use id name input sig =>
          simp only [claudeScanStep, List.filterMap_cons, claudeToolUsePart]
          simp only [createFunctionCallPart, normalizeArgs, if_true]
          rw [if_truthy_jsOr3]
          simp
      | tool_result id rc => simp [claudeScanStep, claudeToolUsePart]
      | image src => simp [claudeScanStep, claudeToolUsePart]
      | otherItem => simp [claudeScanStep, claudeToolUsePart]

/-- C2 counterexample: the claim's precedence puts an explicit signature
carried on the inbound client message above any cached signature, but the
encoder attaches the cached tool signature `CT` to the function-call part even
though the message carries the explicit signature `MSG`: the code's chain for
tool calls is explicit-tool-call > resolved tool signature > explicit message
signature > resolved reasoning signature. -/
theorem c2_counterexample :
    cexAssistantMsg.thoughtSignature = some "MSG"
    ∧ cexToolCall.thoughtSignature = none
    ∧ (buildOpenaiAssistant cexEnv cexAssistantMsg true "model-a" "session-1" true).toolCalls =
        [Part.functionCall { id := "call-1", name := "lookup", args := .obj "argsObj" }
          (some "CT")]
    ∧ ("CT" : String) ≠ "MSG" :=
  ⟨rfl, rfl, rfl, by decide⟩

/-- C2 amended: the signature attached to each emitted part follows a
first-truthy-wins chain.  For OpenAI function-call parts the chain is:
explicit tool-call signature, then the resolved tool signature, then the
explicit message signature, then the resolved reasoning signature.  For Claude
tool_use parts: explicit tool_use signature, then resolved tool signature,
then resolved reasoning signature.  For thought parts: explicit message
signature (OpenAI) or first thinking-block signature (Claude), then resolved
reasoning signature, then resolved tool signature.  Within each kind the
resolved signature is the cached one when the cache-read policy allows it and
it is truthy, else the per-model fallback when the fallback policy allows it;
tool-signature cache and fallback reads are both gated off when the
cache-only-tool-signatures policy is on and the request carries no tools. -/
theorem c2_signature_precedence_amended (env : ConvEnv) (m : OpenAIAssistantMsg)
    (cc : ClaudeContent) (actualModelName sessionId : String) (hasTools : Bool) :
    ((buildOpenaiAssistant env m true actualModelName sessionId hasTools).toolCalls =
      m.tool_calls.map (fun tc =>
        Part.functionCall
          { id := tc.id, name := processToolName env tc.function.name,
            args := normalizeArgs tc.function.arguments }
          (firstTruthy [tc.thoughtSignature,
            (getSignatureContext env sessionId actualModelName hasTools).toolSignature,
            m.thoughtSignature,
            (getSignatureContext env sessionId actualModelName hasTools).reasoningSignature])))
    ∧ ((buildClaudeAssistant env cc true actualModelName sessionId hasTools).toolCalls =
      (claudeItemsOf cc).filterMap
        (claudeToolUsePart env (getSignatureContext env sessionId actualModelName hasTools)))
    ∧ (∀ s : String,
        firstTruthy [m.thoughtSignature,
          (getSignatureContext env sessionId actualModelName hasTools).reasoningSignature,
          (getSignatureContext env sessionId actualModelName hasTools).toolSignature] = some s →
        (buildOpenaiAssistant env m true actualModelName sessionId hasTools).parts.head? =
          some (.thought (openaiReasoningText m) (some s)))
    ∧ (∀ s : String,
        firstTruthy [claudeMsgSignature cc,
          (getSignatureContext env sessionId actualModelName hasTools).reasoningSignature,
          (getSignatureContext env sessionId actualModelName hasTools).toolSignature] = some s →
        (buildClaudeAssistant env cc true actualModelName sessionId hasTools).parts.head? =
          some (.thought " " (some s)))
    ∧ (env.cacheOnlyToolSignatures = true →
        (getSignatureContext env sessionId actualModelName false).toolSignature = none)
    ∧ (env.useCachedSignature = true →
        truthy (env.getReasoningSignature sessionId actualModelName) = true →
        (getSignatureContext env sessionId actualModelName hasTools).reasoningSignature =
          env.getReasoningSignature sessionId actualModelName)
    ∧ (truthy (if env.useCachedSignature then env.getReasoningSignature sessionId actualModelName
          else none) = false →
        (getSignatureContext env sessionId actualModelName hasTools).reasoningSignature =
          (if env.useFallbackSignature then env.getThoughtSignatureForModel actualModelName
           else none))
    ∧ (env.useCachedSignature = true → (!env.cacheOnlyToolSignatures || hasTools) = true →
        truthy (env.getToolSignature sessionId actualModelName) = true →
        (getSignatureContext env sessionId actualModelName hasTools).toolSignature =
          env.getToolSignature sessionId actualModelName)
    ∧ (truthy (if env.useCachedSignature && (!env.cacheOnlyToolSignatures || hasTools) then
          env.getToolSignature sessionId actualModelName else none) = false →
        (getSignatureContext env sessionId actualModelName hasTools).toolSignature =
          (if env.useFallbackSignature && (!env.cacheOnlyToolSignatures || hasTools) then
            env.getToolSignatureForModel actualModelName
           else none)) := by
  refine ⟨?_, ?_, ?_, ?_, ?_, ?_, ?_, ?_, ?_⟩
  · rw [buildOpenaiAssistant_toolCalls_eq]
    by_cases he : m.tool_calls.isEmpty
    · rw [List.isEmpty_iff.mp he]
      simp
    · simp only [he, Bool.not_false, if_true]
      refine List.map_congr_left ?_
      intro tc _
      simp only [createFunctionCallPart, if_true]
      rw [if_truthy_jsOr4]
  · rw [buildClaudeAssistant_toolCalls_eq]
    cases cc with
    | str s => simp [claudeScanContent, claudeItemsOf]
    | nullContent => simp [claudeScanContent, claudeItemsOf]
    | arr items =>
        rw [show claudeScanContent env true
            (getSignatureContext env sessionId actualModelName hasTools) (.arr items) =
          items.foldl (claudeScanStep env true
            (getSignatureContext env sessionId actualModelName hasTools)) ⟨"", [], none⟩ from rfl]
        rw [claudeScan_toolCalls_eq]
        simp [claudeItemsOf]
  · intro s h
    obtain ⟨he, ht⟩ := firstTruthy3_jsOr _ _ _ s h
    have hres : resolveOpenaiThoughtSig env m actualModelName sessionId hasTools = some s := he
    have hts : truthy (some s) = true := by rw [← he]; exact ht
    rw [buildOpenaiAssistant_parts_eq, hres]
    simp [hts]
  · intro s h
    obtain ⟨he, ht⟩ := firstTruthy3_jsOr _ _ _ s h
    have hres : resolveClaudeThoughtSig env cc actualModelName sessionId hasTools = some s := by
      rw [resolveClaudeThoughtSig_eq]; exact he
    have hts : truthy (some s) = true := by rw [← he]; exact ht
    rw [buildClaudeAssistant_parts_eq, hres]
    simp [hts]
  · intro hco
    simp [getSignatureContext, hco, jsOr, truthy]
  · intro hc ht
    simp [getSignatureContext, hc, jsOr, ht]
  · intro hmiss
    simp [getSignatureContext, jsOr, hmiss]
  · intro hc hgate ht
    simp [getSignatureContext, hc, hgate, jsOr, ht]
  · intro hmiss
    simp only [getSignatureContext, jsOr, hmiss, Bool.false_eq_true, if_false]

/-- Witness for C1 at a concrete environment: the cached tool signature `CT`
resolves, so exactly one thought part is emitted, carrying `CT`. -/
theorem c1_witness :
    thoughtCount ((buildOpenaiAssistant cexEnv wMsg true "m" "s" false).parts ++
        (buildOpenaiAssistant cexEnv wMsg true "m" "s" false).toolCalls) = 1
    ∧ (buildOpenaiAssistant cexEnv wMsg true "m" "s" false).parts.head? =
        some (.thought "because" (some "CT"))
    ∧ thoughtCount ((buildClaudeAssistant cexEnv (.str "hey") true "m" "s" false).parts ++
        (buildClaudeAssistant cexEnv (.str "hey") true "m" "s" false).toolCalls) = 1
    ∧ (buildClaudeAssistant cexEnv (.str "hey") true "m" "s" false).parts.head? =
        some (.thought " " (some "CT")) := by
  have h := c1_thought_part_emission cexEnv wMsg (.str "hey") "m" "s" false
  have ho := h.2.1 "CT" rfl (by decide)
  have hc := h.2.2.2.2.1 "CT" rfl (by decide)
  exact ⟨ho.1, ho.2, hc.1, hc.2⟩

/-- Witness for the amended C2 at a concrete environment: the explicit message
signature `MSG` heads the thought-part chain, and the cached tool signature is
returned by the context when the cache-read policy allows it. -/
theorem c2_witness :
    (buildOpenaiAssistant cexEnv cexAssistantMsg true "model-a" "session-1" true).parts.head? =
      some (.thought " " (some "MSG"))
    ∧ (getSignatureContext cexEnv "session-1" "model-a" true).toolSignature = some "CT" := by
  have h := c2_signature_precedence_amended cexEnv cexAssistantMsg (.str "x") "model-a"
    "session-1" true
  exact ⟨h.2.2.1 "MSG" (by decide), h.2.2.2.2.2.2.2.1 rfl rfl (by decide)⟩

/-- Witness for C8 at concrete messages: the id two messages back resolves to
`searchDocs` and the tool result is appended as a new user message. -/
theorem c8_witness :
    findFunctionNameById "id-7" [wMsgCall, wInter] = "searchDocs"
    ∧ handleToolCall "id-7" "output text" [wMsgCall, wInter] =
        [wMsgCall, wInter,
          { role := .user, parts := [.functionResponse "id-7" "searchDocs" "output text"] }] := by
  have h := c8_tool_result_resolution [] wMsgCall wInter "id-7" "output text" "searchDocs"
    rfl rfl rfl (by decide)
  exact h

/-- Witness for C10 at a concrete merge: the built thought part is dropped,
only the tool-call part is appended to the preceding model message. -/
theorem c10_witness :
    pushModelMessage wBuilt [wInter] = [{ role := .model, parts := [.text "done", wCallPart] }]
    ∧ handleAssistantMessage cexEnv cexAssistantMsg [wInter] true "m" "s" true =
        [{ role := .model,
           parts := [Part.text "done"] ++
             (buildOpenaiAssistant cexEnv cexAssistantMsg true "m" "s" true).toolCalls }] := by
  have h := c10_merge_discards_parts
  exact ⟨h.1 wBuilt [] wInter rfl (List.cons_ne_nil _ _) rfl,
    h.2 cexEnv cexAssistantMsg [] wInter true "m" "s" true rfl (List.cons_ne_nil _ _) rfl⟩

/-! ## Transport lemmas (C4) -/

theorem utf8DecodeFuel_ascii :
    ∀ (fuel : Nat) (l : List Nat), l.length ≤ fuel → (∀ b ∈ l, b < 128) →
      utf8DecodeFuel fuel l = l := by
  intro fuel
  induction fuel with
  | zero =>
      intro l hl _
      rw [Nat.le_zero] at hl
      rw [List.length_eq_zero] at hl
      subst hl
      rfl
  | succ f ih =>
      intro l hl hb
      cases l with
      | nil => rfl
      | cons b rest =>
          have hbb : b < 128 := hb b (by simp)
          simp only [utf8DecodeFuel, if_pos hbb]
          rw [ih rest (by simpa using hl) (fun x hx => hb x (List.mem_cons_of_mem _ hx))]

theorem utf8Decode_ascii (l : List Nat) (h : ∀ b ∈ l, b < 128) : utf8Decode l = l :=
  utf8DecodeFuel_ascii l.length l le_rfl h

theorem utf8Encode_ascii (l : List Nat) (h : ∀ b ∈ l, b < 128) : utf8Encode l = l := by
  induction l with
  | nil => rfl
  | cons b rest ih =>
      have hbb : b < 128 := h b (by simp)
      have hr := ih (fun x hx => h x (List.mem_cons_of_mem _ hx))
      simp only [utf8Encode, List.map_cons, List.flatten_cons] at hr ⊢
      rw [show utf8EncodeChar b = [b] from by simp [utf8EncodeChar, hbb], hr]
      rfl

theorem indexOfSub_bound (pat : List Nat) :
    ∀ (l : List Nat) (i : Nat), indexOfSub pat l = some i → i + pat.length ≤ l.length := by
  intro l
  induction l with
  | nil =>
      intro i h
      simp only [indexOfSub] at h
      split at h
      · have hp := List.isPrefixOf_iff_prefix.mp (by assumption)
        have hlen := hp.length_le
        simp only [Option.some.injEq] at h
        subst h
        simpa using hlen
      · exact absurd h (by simp)
  | cons x t ih =>
      intro i h
      simp only [indexOfSub] at h
      split at h
      · have hp := List.isPrefixOf_iff_prefix.mp (by assumption)
        have hlen := hp.length_le
        simp only [Option.some.injEq] at h
        subst h
        simpa using hlen
      · obtain ⟨j, hj, hij⟩ := Option.map_eq_some'.mp h
        subst hij
        have := ih j hj
        simp only [List.length_cons]
        omega

theorem isPrefixOf_append_right (p a b : List Nat) (h : p.isPrefixOf a) :
    p.isPrefixOf (a ++ b) := by
  rw [List.isPrefixOf_iff_prefix] at h ⊢
  exact h.trans (List.prefix_append a b)

theorem prefix_of_append_of_le (p a b : List Nat) (h : p <+: a ++ b)
    (hl : p.length ≤ a.length) : p <+: a := by
  rw [List.prefix_iff_eq_take] at h ⊢
  rw [List.take_append_eq_append_take, Nat.sub_eq_zero_of_le hl, List.take_zero,
    List.append_nil] at h
  exact h

theorem indexOfSub_append_some (pat : List Nat) :
    ∀ (a b : List Nat) (i : Nat), indexOfSub pat a = some i →
      indexOfSub pat (a ++ b) = some i := by
  intro a
  induction a with
  | nil =>
      intro b i h
      simp only [indexOfSub] at h
      split at h
      · have hp : pat = [] := by
          have := (List.isPrefixOf_iff_prefix.mp (by assumption)).length_le
          simpa [List.length_eq_zero] using this
        subst hp
        simp only [Option.some.injEq] at h
        subst h
        cases b <;> simp [indexOfSub, List.isPrefixOf]
      · exact absurd h (by simp)
  | cons x t ih =>
      intro b i h
      simp only [indexOfSub] at h
      by_cases hp : pat.isPrefixOf (x :: t)
      · rw [if_pos hp] at h
        show indexOfSub pat (x :: (t ++ b)) = some i
        simp only [indexOfSub]
        rw [if_pos (show pat.isPrefixOf (x :: (t ++ b)) = true from
          isPrefixOf_append_right pat (x :: t) b hp)]
        exact h
      · rw [if_neg hp] at h
        obtain ⟨j, hj, hij⟩ := Option.map_eq_some'.mp h
        subst hij
        have hbnd := indexOfSub_bound pat t j hj
        have hlen : pat.length ≤ (x :: t).length := by
          simp only [List.length_cons]
          omega
        have hnp : ¬ pat.isPrefixOf ((x :: t) ++ b) := by
          intro hc
          exact hp (List.isPrefixOf_iff_prefix.mpr
            (prefix_of_append_of_le pat (x :: t) b (List.isPrefixOf_iff_prefix.mp hc) hlen))
        show indexOfSub pat (x :: (t ++ b)) = some (j + 1)
        simp only [indexOfSub]
        rw [if_neg (show ¬ pat.isPrefixOf (x :: (t ++ b)) = true from hnp), ih b j hj]
        rfl

theorem feedChunk_found (st : TState) (chunk : List Nat) (i : Nat)
    (hsp : st.headersParsed = false)
    (hfind : indexOfSub crlfcrlf (st.headerBuffer ++ utf8Decode chunk) = some i) :
    feedChunk st chunk =
      { headersParsed := true,
        headerBuffer := st.headerBuffer ++ utf8Decode chunk,
        responseStatus :=
          (parseHeaderBlock ((st.headerBuffer ++ utf8Decode chunk).take i)).1,
        responseStatusText :=
          (parseHeaderBlock ((st.headerBuffer ++ utf8Decode chunk).take i)).2.1,
        responseHeaders :=
          (parseHeaderBlock ((st.headerBuffer ++ utf8Decode chunk).take i)).2.2,
        bodyChunks := st.bodyChunks ++
          (if !((st.headerBuffer ++ utf8Decode chunk).drop (i + 4)).isEmpty then
            [utf8Encode ((st.headerBuffer ++ utf8Decode chunk).drop (i + 4))]
           else []) } := by
  simp only [feedChunk, hsp, Bool.not_false, if_true, hfind]

theorem feedChunk_not_found (st : TState) (chunk : List Nat)
    (hsp : st.headersParsed = false)
    (hfind : indexOfSub crlfcrlf (st.headerBuffer ++ utf8Decode chunk) = none) :
    feedChunk st chunk = { st with headerBuffer := st.headerBuffer ++ utf8Decode chunk } := by
  simp only [feedChunk, hsp, Bool.not_false, if_true, hfind]

theorem feedChunk_parsed (st : TState) (chunk : List Nat) (hsp : st.headersParsed = true) :
    feedChunk st chunk = { st with bodyChunks := st.bodyChunks ++ [chunk] } := by
  simp [feedChunk, hsp]

/-- C4 amended: for an all-ASCII raw response (every byte below 128, so no
split can land inside a multi-byte UTF-8 sequence) containing the CRLF CRLF
boundary, feeding the bytes in one chunk and feeding them split at any byte
offset into two chunks yield the same parsed status, status text, headers and
body. -/
theorem c4_split_invariance_ascii (s : List Nat) (k : Nat)
    (hascii : ∀ b ∈ s, b < 128) (hwf : (indexOfSub crlfcrlf s).isSome = true) :
    runTransport [s] = runTransport [s.take k, s.drop k] := by
  obtain ⟨i, hi⟩ := Option.isSome_iff_exists.mp hwf
  have hdecs : utf8Decode s = s := utf8Decode_ascii s hascii
  have hdect : utf8Decode (s.take k) = s.take k :=
    utf8Decode_ascii _ (fun b hb => hascii b (List.take_subset k s hb))
  have hdecd : utf8Decode (s.drop k) = s.drop k :=
    utf8Decode_ascii _ (fun b hb => hascii b (List.drop_subset k s hb))
  have hencd : ∀ n : Nat, utf8Encode (s.drop n) = s.drop n := fun n =>
    utf8Encode_ascii _ (fun b hb => hascii b (List.drop_subset n s hb))
  have hfind1 : indexOfSub crlfcrlf (initTState.headerBuffer ++ utf8Decode s) = some i := by
    simpa [initTState, hdecs] using hi
  have hL : runTransport [s] =
      { status := (parseHeaderBlock (s.take i)).1,
        statusText := (parseHeaderBlock (s.take i)).2.1,
        headers := (parseHeaderBlock (s.take i)).2.2,
        body := s.drop (i + 4) } := by
    simp only [runTransport, List.foldl_cons, List.foldl_nil]
    rw [feedChunk_found initTState s i rfl hfind1]
    simp only [initTState, List.nil_append, hdecs]
    by_cases hB : (s.drop (i + 4)).isEmpty
    · simp [hB, List.isEmpty_iff.mp hB]
    · simp [hB, hencd]
  rcases hfk : indexOfSub crlfcrlf (s.take k) with _ | j
  · have hf1 : indexOfSub crlfcrlf (initTState.headerBuffer ++ utf8Decode (s.take k)) = none := by
      simpa [initTState, hdect] using hfk
    have hf2 : indexOfSub crlfcrlf
        ((initTState.headerBuffer ++ utf8Decode (s.take k)) ++ utf8Decode (s.drop k)) =
          some i := by
      simpa [initTState, hdect, hdecd, List.take_append_drop] using hi
    have hR : runTransport [s.take k, s.drop k] =
        { status := (parseHeaderBlock (s.take i)).1,
          statusText := (parseHeaderBlock (s.take i)).2.1,
          headers := (parseHeaderBlock (s.take i)).2.2,
          body := s.drop (i + 4) } := by
      simp only [runTransport, List.foldl_cons, List.foldl_nil]
      rw [feedChunk_not_found initTState (s.take k) rfl hf1]
      rw [feedChunk_found _ (s.drop k) i rfl hf2]
      simp only [initTState, List.nil_append, hdect, hdecd, List.take_append_drop]
      by_cases hB : (s.drop (i + 4)).isEmpty
      · simp [hB, List.isEmpty_iff.mp hB]
      · simp [hB, hencd]
    rw [hL, hR]
  · have hj' : indexOfSub crlfcrlf s = some j := by
      have := indexOfSub_append_some crlfcrlf (s.take k) (s.drop k) j hfk
      rwa [List.take_append_drop] at this
    have hji : j = i := by
      rw [hi] at hj'
      exact (Option.some.inj hj').symm
    subst hji
    have hbk : j + 4 ≤ (s.take k).length := by
      have := indexOfSub_bound crlfcrlf (s.take k) j hfk
      simpa [crlfcrlf] using this
    have hik : j ≤ k := by
      have hlk : (s.take k).length ≤ k := by
        rw [List.length_take]
        exact Nat.min_le_left k s.length
      omega
    have htk : (s.take k).take j = s.take j := by
      rw [List.take_take, Nat.min_eq_left hik]
    have hf1 : indexOfSub crlfcrlf (initTState.headerBuffer ++ utf8Decode (s.take k)) =
        some j := by
      simpa [initTState, hdect] using hfk
    have henck : utf8Encode ((s.take k).drop (j + 4)) = (s.take k).drop (j + 4) :=
      utf8Encode_ascii _ (fun b hb => hascii b (List.take_subset k s (List.drop_subset _ _ hb)))
    have hsplit : (s.take k).drop (j + 4) ++ s.drop k = s.drop (j + 4) := by
      conv_rhs => rw [← List.take_append_drop k s]
      rw [List.drop_append_eq_append_drop, Nat.sub_eq_zero_of_le hbk, List.drop_zero]
    have hR : runTransport [s.take k, s.drop k] =
        { status := (parseHeaderBlock (s.take j)).1,
          statusText := (parseHeaderBlock (s.take j)).2.1,
          headers := (parseHeaderBlock (s.take j)).2.2,
          body := s.drop (j + 4) } := by
      simp only [runTransport, List.foldl_cons, List.foldl_nil]
      rw [feedChunk_found initTState (s.take k) j rfl hf1]
      rw [feedChunk_parsed _ _ rfl]
      simp only [initTState, List.nil_append, hdect, htk]
      by_cases hB : ((s.take k).drop (j + 4)).isEmpty
      · have hBe : (s.take k).drop (j + 4) = [] := List.isEmpty_iff.mp hB
        have hdk : s.drop (j + 4) = s.drop k := by
          rw [← hsplit, hBe, List.nil_append]
        simp [hB, hBe, hdk]
      · simp [hB, henck, hsplit]
    rw [hL, hR]

/-- C4 counterexample: splitting the well-formed response `utf8Resp` at byte
offset 20 — inside the two-byte character — does not reproduce the whole-feed
parse: the header-phase `chunk.toString()` decodes the dangling lead byte to
U+FFFD, so the split feed returns body bytes `EF BF BD A9` instead of
`C3 A9`. -/
theorem c4_counterexample :
    (indexOfSub crlfcrlf utf8Resp).isSome = true
    ∧ runTransport [utf8Resp] ≠ runTransport [utf8Resp.take 20, utf8Resp.drop 20]
    ∧ (runTransport [utf8Resp]).body = [195, 169]
    ∧ (runTransport [utf8Resp.take 20, utf8Resp.drop 20]).body = [239, 191, 189, 169] :=
  ⟨by decide, by decide, by decide, by decide⟩

/-- Witness for the amended C4 at a concrete ASCII response and offset. -/
theorem c4_witness :
    runTransport [asciiResp] = runTransport [asciiResp.take 5, asciiResp.drop 5] :=
  c4_split_invariance_ascii asciiResp 5 (by decide) (by decide)

/-! ## Upstream error taxonomy (C5) -/

/-- C5: on a 403 whose body carries the caller-permission (context-window)
marker the call fails with the context-too-large error and the token-disable
hook is not invoked; on any other 403 body the hook is invoked exactly once
and the call fails with the account-disabled error; in both cases the thrown
error carries the upstream status and the raw body. -/
theorem c5_error_403_taxonomy (pred : String → Bool) (errorBody : String) :
    (pred errorBody = true →
      handleApiError pred 403 errorBody =
        (createApiError (contextTooLargeMessage errorBody) 403 errorBody, 0))
    ∧ (pred errorBody = false →
      handleApiError pred 403 errorBody =
        (createApiError (accountDisabledMessage errorBody) 403 errorBody, 1))
    ∧ (handleApiError pred 403 errorBody).1.status = 403
    ∧ (handleApiError pred 403 errorBody).1.errorBody = errorBody := by
  refine ⟨?_, ?_, ?_, ?_⟩
  · intro h
    simp [handleApiError, h]
  · intro h
    simp [handleApiError, h]
  · by_cases h : pred errorBody = true <;> simp [handleApiError, h, createApiError]
  · by_cases h : pred errorBody = true <;> simp [handleApiError, h, createApiError]

/-- Witness for C5: both 403 branches at concrete bodies. -/
theorem c5_witness :
    handleApiError (fun _ => true) 403 "body-a" =
      (createApiError (contextTooLargeMessage "body-a") 403 "body-a", 0)
    ∧ handleApiError (fun _ => false) 403 "body-b" =
      (createApiError (accountDisabledMessage "body-b") 403 "body-b", 1) :=
  ⟨(c5_error_403_taxonomy (fun _ => true) "body-a").1 rfl,
   (c5_error_403_taxonomy (fun _ => false) "body-b").2.1 rfl⟩

/-! ## Subprocess exit handling (C6) -/

/-- C6 counterexample: when the error stream is empty — which is not valid
JSON, so the claim says its raw text `""` becomes the message — the handler
instead keeps the default message `Process exited with code 5`. -/
theorem c6_counterexample :
    buildProcessExitError (fun _ => none) 5 "" =
      { message := "Process exited with code 5", code := "ERR_NETWORK",
        errorType := some "UNKNOWN_ERROR", exitCode := 5 }
    ∧ ("Process exited with code 5" : String) ≠ "" :=
  ⟨rfl, by decide⟩

/-- C6 amended: exit code 3 maps to the timeout class `ECONNABORTED`, 4 to the
configuration class `ERR_CONFIG`, any other non-zero code to the network class
`ERR_NETWORK`; the message is the `error` field of the JSON object parsed from
a non-empty error stream, the raw stream text when the non-empty stream is not
valid JSON, and the default `Process exited with code N` when the stream is
empty; the error also carries the exit code. -/
theorem c6_exit_code_mapping_amended (parseJson : String → Option JsErrObj)
    (code : Nat) (stderrData : String) :
    (code = 3 → (buildProcessExitError parseJson code stderrData).code = "ECONNABORTED")
    ∧ (code = 4 → (buildProcessExitError parseJson code stderrData).code = "ERR_CONFIG")
    ∧ (code ≠ 3 → code ≠ 4 →
        (buildProcessExitError parseJson code stderrData).code = "ERR_NETWORK")
    ∧ (∀ obj : JsErrObj, stderrData ≠ "" → parseJson stderrData = some obj →
        (buildProcessExitError parseJson code stderrData).message = obj.error.getD "")
    ∧ (stderrData ≠ "" → parseJson stderrData = none →
        (buildProcessExitError parseJson code stderrData).message = stderrData)
    ∧ (stderrData = "" →
        (buildProcessExitError parseJson code stderrData).message =
          "Process exited with code " ++ toString code)
    ∧ (buildProcessExitError parseJson code stderrData).exitCode = code := by
  refine ⟨?_, ?_, ?_, ?_, ?_, ?_, ?_⟩
  · intro h
    subst h
    simp [buildProcessExitError, classifyExit]
  · intro h
    subst h
    simp [buildProcessExitError, classifyExit]
  · intro h3 h4
    simp [buildProcessExitError, classifyExit, h3, h4]
  · intro obj hne hp
    simp [buildProcessExitError, hne, hp]
  · intro hne hp
    simp [buildProcessExitError, hne, hp]
  · intro he
    simp [buildProcessExitError, he]
  · simp [buildProcessExitError]

/-- Witness for the amended C6: exit code 3 with a JSON stderr carrying a
timeout message, and exit code 7 with a non-JSON stderr. -/
theorem c6_witness :
    (buildProcessExitError (fun _ => some wErrObj) 3 "stderr-json").code = "ECONNABORTED"
    ∧ (buildProcessExitError (fun _ => some wErrObj) 3 "stderr-json").message =
        "connect timed out"
    ∧ (buildProcessExitError (fun _ => none) 7 "plain text").code = "ERR_NETWORK"
    ∧ (buildProcessExitError (fun _ => none) 7 "plain text").message = "plain text" := by
  refine ⟨?_, ?_, ?_, ?_⟩
  · exact (c6_exit_code_mapping_amended (fun _ => some wErrObj) 3 "stderr-json").1 rfl
  · exact (c6_exit_code_mapping_amended (fun _ => some wErrObj) 3 "stderr-json").2.2.2.1
      wErrObj (by decide) rfl
  · exact (c6_exit_code_mapping_amended (fun _ => none) 7 "plain text").2.2.1
      (by decide) (by decide)
  · exact (c6_exit_code_mapping_amended (fun _ => none) 7 "plain text").2.2.2.2.1
      (by decide) rfl

/-! ## Gzip fallback (C7) -/

/-- C7: for a buffered response declaring a gzip content-encoding whose body
is not valid gzip data (decompression fails), the body post-processing never
throws — it is a total function — and returns the corrupted input bytes
unchanged. -/
theorem c7_gzip_fallback (gunzip : List Nat → Option (List Nat))
    (contentEncoding : String) (bodyBuffer : List Nat)
    (henc : lowerIncludes contentEncoding "gzip" = true)
    (hfail : gunzip bodyBuffer = none) :
    postProcessBody gunzip false contentEncoding bodyBuffer = bodyBuffer := by
  simp [postProcessBody, henc, hfail]

/-- Witness for C7: a mixed-case gzip declaration and a three-byte corrupted
body. -/
theorem c7_witness :
    postProcessBody (fun _ => none) false "GZIP" [31, 139, 0] = [31, 139, 0] :=
  c7_gzip_fallback (fun _ => none) "GZIP" [31, 139, 0] (by decide) rfl

end Antigravity
